import Mathlib

/-!
Formal model of the `ModelCanvas` rendering pipeline
(`src/ModelCanvas.tsx` of the react-threejs model-viewer):
the material patch step, the cross-fade animator, texture/sticker loading
with cancellation, the auto-frame normalizer, the decal projector and the
model error boundary.

Modelling conventions: JavaScript numbers are exact rationals (`ℚ`);
textures, materials and meshes are identified by natural-number ids;
`undefined`/`null` fields are `Option`s; React effect/cleanup sequencing
and the per-frame callback are explicit state-transition functions.
-/

namespace ModelViewer

/-- A 2-component rational vector (GLSL `vec2`, e.g. the interpolated `vMapUv`). -/
structure Vec2 where
  x : ℚ
  y : ℚ
  deriving DecidableEq

/-- A 4-component rational vector (GLSL `vec4` texel colors). -/
structure Vec4 where
  r : ℚ
  g : ℚ
  b : ℚ
  a : ℚ
  deriving DecidableEq

/-- GLSL `clamp(x, lo, hi)`. -/
def glslClamp (x lo hi : ℚ) : ℚ :=
  min (max x lo) hi

/-- GLSL `mix(x, y, a) = x·(1−a) + y·a`. -/
def glslMix (x y a : ℚ) : ℚ :=
  x * (1 - a) + y * a

/-- The Hermite curve `t²(3 − 2t)` used by GLSL `smoothstep`. -/
def hermiteCurve (t : ℚ) : ℚ :=
  t * t * (3 - 2 * t)

/-- GLSL `smoothstep(e0, e1, x)`: Hermite interpolation of the clamped ratio. -/
def glslSmoothstep (e0 e1 x : ℚ) : ℚ :=
  hermiteCurve (glslClamp ((x - e0) / (e1 - e0)) 0 1)

/-- Componentwise GLSL `mix` on `vec4`. -/
def mixV4 (x y : Vec4) (a : ℚ) : Vec4 :=
  ⟨glslMix x.r y.r a, glslMix x.g y.g a, glslMix x.b y.b a, glslMix x.a y.a a⟩

/-- Componentwise `vec4` product (the shader's `diffuseColor *= texelColor`). -/
def mulV4 (x y : Vec4) : Vec4 :=
  ⟨x.r * y.r, x.g * y.g, x.b * y.b, x.a * y.a⟩

/-- The fragment stage the patch injects in place of `#include <map_fragment>`
(`ModelCanvas.tsx` lines 193–207).  Texture sampling is modelled by handing the
stage the bound samplers as functions: `uPrevMap`/`uNextMap` return the texel a
`texture2D` lookup yields at a uv, and `uNoiseMapR` returns the red channel of
the noise texture.  The stage returns the updated `diffuseColor`. -/
def patchedMapFragment (uPrevMap uNextMap : Vec2 → Vec4) (uNoiseMapR : Vec2 → ℚ)
    (uMix : ℚ) (vMapUv : Vec2) (diffuseColor : Vec4) : Vec4 :=
  let texPrev := uPrevMap vMapUv
  let texNext := uNextMap vMapUv
  let noise := uNoiseMapR ⟨vMapUv.x * 8 + uMix * 2, vMapUv.y * 8 + uMix * 2⟩
  let mixProgress := glslClamp uMix 0 1
  let noiseEdge := glslSmoothstep (mixProgress - 0.2) (mixProgress + 0.2) noise
  let blend := max noiseEdge mixProgress
  let texelColor := mixV4 texPrev texNext blend
  mulV4 diffuseColor texelColor

/-- The color stage exactly as the specification words it: noise sampled at the
uv scaled by 8 and offset by `2 × blendFactor` in both axes,
`noiseEdge = smoothstep(blendFactor − 0.2, blendFactor + 0.2, noiseSample)`,
`blend = max(noiseEdge, blendFactor clamped to [0,1])`, and the base color
multiplied by `mix(previousMapSample, nextMapSample, blend)`. -/
def specColorStage (uPrevMap uNextMap : Vec2 → Vec4) (uNoiseMapR : Vec2 → ℚ)
    (blendFactor : ℚ) (vMapUv : Vec2) (baseColor : Vec4) : Vec4 :=
  let noiseSample := uNoiseMapR ⟨vMapUv.x * 8 + 2 * blendFactor, vMapUv.y * 8 + 2 * blendFactor⟩
  let noiseEdge := glslSmoothstep (blendFactor - 0.2) (blendFactor + 0.2) noiseSample
  let blend := max noiseEdge (glslClamp blendFactor 0 1)
  mulV4 baseColor (mixV4 (uPrevMap vMapUv) (uNextMap vMapUv) blend)

/-- Sample textures for evaluating the shader stage at a concrete fragment. -/
def demoPrevMap : Vec2 → Vec4 := fun _ => ⟨1, 0, 0, 1⟩

/-- Sample next-map texture for concrete evaluation. -/
def demoNextMap : Vec2 → Vec4 := fun _ => ⟨0, 1, 0, 1⟩

/-- Sample noise texture for concrete evaluation. -/
def demoNoiseMap : Vec2 → ℚ := fun v => glslClamp v.x 0 1

/-! ### Auto-frame normalizer (C4)

The `<group>` element persists for the whole life of the `Model` component;
attaching a newly loaded scene replaces the group's children but keeps the
group's own `position` and `scale`.  The hierarchy's geometry is modelled as
the point cloud of its world-space sample points in the group's child space;
`Box3.setFromObject` is the componentwise min/max over those points after the
group transform (uniform scale then translate). -/

/-- A 3-component rational vector (three.js `Vector3`). -/
structure V3 where
  x : ℚ
  y : ℚ
  z : ℚ
  deriving DecidableEq

/-- The zero vector. -/
def V3.zero : V3 := ⟨0, 0, 0⟩

/-- Componentwise sum. -/
def V3.add (v w : V3) : V3 := ⟨v.x + w.x, v.y + w.y, v.z + w.z⟩

/-- Componentwise difference (`Vector3.sub`). -/
def V3.sub (v w : V3) : V3 := ⟨v.x - w.x, v.y - w.y, v.z - w.z⟩

/-- Scalar multiple. -/
def V3.smul (a : ℚ) (v : V3) : V3 := ⟨a * v.x, a * v.y, a * v.z⟩

/-- Componentwise minimum (`Box3` lower-corner accumulation). -/
def V3.minc (v w : V3) : V3 := ⟨min v.x w.x, min v.y w.y, min v.z w.z⟩

/-- Componentwise maximum (`Box3` upper-corner accumulation). -/
def V3.maxc (v w : V3) : V3 := ⟨max v.x w.x, max v.y w.y, max v.z w.z⟩

/-- Lower corner of the AABB of a point cloud (`none` for an empty cloud,
matching three.js's empty `Box3`). -/
def lowerCorner : List V3 → Option V3
  | [] => none
  | p :: ps => some (ps.foldl V3.minc p)

/-- Upper corner of the AABB of a point cloud. -/
def upperCorner : List V3 → Option V3
  | [] => none
  | p :: ps => some (ps.foldl V3.maxc p)

/-- The `<group ref={groupRef}>` state: local `position`, uniform `scale`
(`scale.setScalar` keeps all three axes equal), and the attached hierarchy's
geometry sample points in child space. -/
structure GroupState where
  position : V3
  scale : ℚ
  pts : List V3
  deriving DecidableEq

/-- The hierarchy's points in world space (group transform applied). -/
def GroupState.worldPts (g : GroupState) : List V3 :=
  g.pts.map (fun p => V3.add (V3.smul g.scale p) g.position)

/-- `box.getSize`: upper minus lower corner, `(0,0,0)` for an empty box. -/
def GroupState.boxSize (g : GroupState) : V3 :=
  match lowerCorner g.worldPts, upperCorner g.worldPts with
  | some lo, some hi => V3.sub hi lo
  | _, _ => V3.zero

/-- `box.getCenter`: midpoint of the corners, `(0,0,0)` for an empty box. -/
def GroupState.boxCenter (g : GroupState) : V3 :=
  match lowerCorner g.worldPts, upperCorner g.worldPts with
  | some lo, some hi => V3.smul (1/2) (V3.add lo hi)
  | _, _ => V3.zero

/-- `Math.max(size.x, size.y, size.z)`. -/
def maxExtent (s : V3) : ℚ := max s.x (max s.y s.z)

/-- `const scale = maxAxis > 0 ? 2.4 / maxAxis : 1` with
`maxAxis = Math.max(size.x, size.y, size.z)` of the measured box. -/
def frameScale (g : GroupState) : ℚ :=
  if 0 < maxExtent g.boxSize then (2.4 : ℚ) / maxExtent g.boxSize else 1

/-- The auto-frame effect (`ModelCanvas.tsx` lines 275–285): measure the box,
set (`scale.setScalar`) the group scale to `2.4 / maxAxis` (or `1` when the
measured extent is not positive), re-measure, and subtract the re-measured box
center from the group position. -/
def autoFrame (g : GroupState) : GroupState :=
  let g1 : GroupState := { g with scale := frameScale g }
  { g1 with position := V3.sub g1.position g1.boxCenter }

/-- Attaching a newly loaded scene replaces the group's children wholesale;
the group's own transform persists. -/
def attachScene (g : GroupState) (pts : List V3) : GroupState :=
  { g with pts := pts }

/-- A first-load group: identity transform, unit-segment geometry. -/
def demoGroupA : GroupState := ⟨V3.zero, 1, [V3.zero, ⟨1, 0, 0⟩]⟩

/-- The geometry of a second loaded model (a segment of length 2). -/
def demoSceneB : List V3 := [V3.zero, ⟨2, 0, 0⟩]

/-! ### Model error boundary (C6)

`ModelErrorBoundary` (lines 40–77) is a class component with state
`{ error: Error | null }`; errors are modelled by their message strings. -/

/-- What the boundary renders: the fallback notice or the wrapped 3D subtree. -/
inductive BoundaryOutput where
  | fallback
  | children
  deriving DecidableEq

/-- The boundary's component state. -/
structure BoundaryState where
  error : Option String
  deriving DecidableEq

/-- `static getDerivedStateFromError(error)`: invoked on any unhandled error
thrown while loading/rendering the subtree; stores the error. -/
def getDerivedStateFromError (e : String) (_s : BoundaryState) : BoundaryState :=
  { error := some e }

/-- `componentDidUpdate`: clears the stored error exactly when the `resetKey`
prop changed and an error is present. -/
def boundaryDidUpdate (prevKey newKey : String) (s : BoundaryState) : BoundaryState :=
  if prevKey ≠ newKey ∧ s.error.isSome then { error := none } else s

/-- `render()`: the fallback notice while an error is stored, the children
otherwise. -/
def boundaryRender (s : BoundaryState) : BoundaryOutput :=
  if s.error.isSome then .fallback else .children

/-- The `resetKey` handed to the boundary by `ModelCanvas` (line 360). -/
def resetKey (modelUrl : String) (textureUrl : Option String) : String :=
  modelUrl ++ "-" ++ textureUrl.getD "none"

/-! ### Texture / sticker load slots with cancellation (C2, C7)

Each of the two load effects (`textureUrl` effect, lines 127–157, and
`stickerUrl` effect, lines 248–273) issues asynchronous loads guarded by a
per-effect-run `cancelled` closure flag; React runs the previous run's cleanup
(which sets that run's flag) before the next run's body.  Requests are kept
newest-first: the head is the latest effect run's request. -/

/-- One issued `TextureLoader.load` call: its url and the `cancelled` flag of
the effect run that issued it. -/
structure LoadRequest where
  url : String
  cancelled : Bool
  deriving DecidableEq

/-- The state of one load slot: every request issued so far (newest first)
and the committed React state (`texture` / `stickerTexture`), recorded as the
url the committed texture was decoded from (`none` is the null texture). -/
structure SlotState where
  reqs : List LoadRequest
  committed : Option String
  deriving DecidableEq

/-- The cleanup of the previous effect run: `cancelled = true` for the most
recently issued request. -/
def cancelCurrent : List LoadRequest → List LoadRequest
  | [] => []
  | r :: rs => ⟨r.url, true⟩ :: rs

/-- A selection change (the effect re-running because its url dependency
changed, including the initial run): previous cleanup first; then, for a null
url, commit `null` and issue nothing; otherwise issue a fresh, uncancelled
request — the texture slot (`provisionalClear = true`) also provisionally
commits `null` so the visible state is never half stale. -/
def selectStep (provisionalClear : Bool) (url : Option String) (s : SlotState) : SlotState :=
  match url with
  | none => ⟨cancelCurrent s.reqs, none⟩
  | some u =>
      ⟨⟨u, false⟩ :: cancelCurrent s.reqs,
        if provisionalClear then none else s.committed⟩

/-- The loader resolving the request at position `i` (0 = newest): both the
success and the error callback first consult their run's `cancelled` flag and
discard the result if it is set; otherwise success commits the loaded texture
and failure commits `null`. -/
def finishStep (i : ℕ) (ok : Bool) (s : SlotState) : SlotState :=
  match s.reqs[i]? with
  | some r =>
      if r.cancelled then s
      else { s with committed := if ok then some r.url else none }
  | none => s

/-- The events a load slot sees. -/
inductive SlotEvent where
  | select (url : Option String)
  | finish (i : ℕ) (ok : Bool)

/-- One slot transition. -/
def slotStep (provisionalClear : Bool) (s : SlotState) : SlotEvent → SlotState
  | .select url => selectStep provisionalClear url s
  | .finish i ok => finishStep i ok s

/-- The slot before the first effect run. -/
def initSlot : SlotState := ⟨[], none⟩

/-- A whole history of selection changes and load completions. -/
def runSlot (provisionalClear : Bool) (evs : List SlotEvent) : SlotState :=
  evs.foldl (slotStep provisionalClear) initSlot

/-- The texture-load error callback (lines 149–151): with the committed state
it returns the new committed state and everything the callback writes to the
console. -/
def textureOnError (cancelled : Bool) (committed : Option String) :
    Option String × List String :=
  if cancelled then (committed, []) else (none, [])

/-- The sticker-load error callback (lines 266–268). -/
def stickerOnError (cancelled : Bool) (committed : Option String) :
    Option String × List String :=
  if cancelled then (committed, []) else (none, [])

/-! ### The material patch effect, texture-change effect and per-frame
animator (C1, C3, C8, C9, C10)

Materials, meshes and textures are identified by natural-number ids.  The
`Model` component's refs (`originalMaps`, `materialsRef`, `stickerTargetRef`,
`groupRef.rotation.y`) live in a `ViewerState`; the mutable fields of the
material objects themselves are a map from material id to `MaterialState`.
`undefined` fields are `none`; a stored `null` texture is `some none`. -/

/-- The shader uniforms captured in `userData.blendUniforms` when
`onBeforeCompile` runs. -/
structure Uniforms where
  uPrevMap : ℕ
  uNextMap : ℕ
  uNoiseMap : ℕ
  uMix : ℚ
  deriving DecidableEq

/-- The mutable fields of one `MeshStandardMaterial` this code reads or
writes.  `map` is the material's authored color map (this code never
reassigns it); `userData` fields start out `undefined` (`none`). -/
structure MaterialState where
  map : Option ℕ
  metalness : Option ℚ
  roughness : Option ℚ
  patched : Bool
  hookInstalls : ℕ
  needsUpdate : Bool
  blendUniforms : Option Uniforms
  originalMapUD : Option (Option ℕ)
  currentMap : Option (Option ℕ)
  transitionProgress : Option ℚ
  deriving DecidableEq

/-- A mesh of the loaded scene graph: its id and its material ids
(`mesh.material` may be an array). -/
structure MeshNode where
  meshId : ℕ
  matIds : List ℕ
  deriving DecidableEq

/-- All material ids of a scene, in traversal order. -/
def sceneMats (scene : List MeshNode) : List ℕ :=
  scene.flatMap MeshNode.matIds

/-- The `Model` component's ref state plus the material objects. -/
structure ViewerState where
  mats : ℕ → MaterialState
  originalMaps : ℕ → Option (Option ℕ)
  materialsList : List ℕ
  stickerTarget : Option ℕ
  castShadow : ℕ → Bool
  receiveShadow : ℕ → Bool
  rotationY : ℚ

/-- Lines 173–175: `if (!originalMaps.current.has(material))
originalMaps.current.set(material, standardMaterial.map ?? null)`. -/
def recordOriginalMap (s : ViewerState) (mid : ℕ) : ViewerState :=
  if (s.originalMaps mid).isNone
  then { s with originalMaps := Function.update s.originalMaps mid (some ((s.mats mid).map)) }
  else s

/-- Lines 177–212: `if (!standardMaterial.userData.__patched)` assign the
`onBeforeCompile` hook, mark `__patched`, request a shader rebuild.
`hookInstalls` counts how often the hook-installation branch ran. -/
def installHook (s : ViewerState) (mid : ℕ) : ViewerState :=
  if (s.mats mid).patched = false
  then { s with
          mats := Function.update s.mats mid
                    ({ s.mats mid with
                        hookInstalls := (s.mats mid).hookInstalls + 1
                        patched := true
                        needsUpdate := true }) }
  else s

/-- Lines 214–216: default `metalness` to `0.2` when undefined. -/
def defaultMetalness (s : ViewerState) (mid : ℕ) : ViewerState :=
  if (s.mats mid).metalness = none
  then { s with
          mats := Function.update s.mats mid ({ s.mats mid with metalness := some 0.2 }) }
  else s

/-- Lines 217–219: default `roughness` to `0.6` when undefined. -/
def defaultRoughness (s : ViewerState) (mid : ℕ) : ViewerState :=
  if (s.mats mid).roughness = none
  then { s with
          mats := Function.update s.mats mid ({ s.mats mid with roughness := some 0.6 }) }
  else s

/-- Lines 221–223: `if (!standardMaterial.userData.originalMap)` — a JS
falsy test, true for undefined and for a stored null — set it to
`standardMaterial.map ?? null`. -/
def recordOriginalMapUD (s : ViewerState) (mid : ℕ) : ViewerState :=
  if (s.mats mid).originalMapUD = none ∨ (s.mats mid).originalMapUD = some none
  then { s with
          mats := Function.update s.mats mid
                    ({ s.mats mid with originalMapUD := some ((s.mats mid).map) }) }
  else s

/-- Lines 224–226: `if (!materialsRef.current.includes(standardMaterial))
materialsRef.current.push(standardMaterial)`. -/
def pushMaterial (s : ViewerState) (mid : ℕ) : ViewerState :=
  if mid ∈ s.materialsList then s
  else { s with materialsList := s.materialsList ++ [mid] }

/-- The body of the patch effect's `materials.forEach` (lines 171–227) for one
material: the six statements in source order. -/
def patchOneMaterial (s : ViewerState) (mid : ℕ) : ViewerState :=
  pushMaterial
    (recordOriginalMapUD
      (defaultRoughness
        (defaultMetalness
          (installHook
            (recordOriginalMap s mid) mid) mid) mid) mid) mid

/-- Lines 164–166: `if (!stickerTargetRef.current) stickerTargetRef.current =
mesh` — the first mesh encountered is captured and never replaced. -/
def captureStickerTarget (s : ViewerState) (mesh : MeshNode) : ViewerState :=
  if s.stickerTarget.isNone then { s with stickerTarget := some mesh.meshId } else s

/-- Lines 167–168: `mesh.castShadow = true; mesh.receiveShadow = true`. -/
def enableShadows (s : ViewerState) (mesh : MeshNode) : ViewerState :=
  { s with
      castShadow := Function.update s.castShadow mesh.meshId true
      receiveShadow := Function.update s.receiveShadow mesh.meshId true }

/-- The patch effect's per-mesh work (lines 162–227): capture the mesh as the
sticker target if none is captured yet, enable shadows, then patch each of its
materials (`mesh.material` normalised to an array). -/
def patchMesh (s : ViewerState) (mesh : MeshNode) : ViewerState :=
  mesh.matIds.foldl patchOneMaterial (enableShadows (captureStickerTarget s mesh) mesh)

/-- The whole patch effect (lines 159–230): traverse the scene graph.  Its
dependencies include `gltf.scene` and `texture`, so it re-runs on every model
or texture change. -/
def patchEffect (scene : List MeshNode) (s : ViewerState) : ViewerState :=
  scene.foldl patchMesh s

/-- `n` successive runs of the patch effect. -/
def patchRuns (scene : List MeshNode) : ℕ → ViewerState → ViewerState
  | 0, s => s
  | n + 1, s => patchEffect scene (patchRuns scene n s)

/-- The component's refs at mount: empty `originalMaps` WeakMap, empty
`materialsRef`, no sticker target, zero rotation. -/
def initViewer (mats0 : ℕ → MaterialState) : ViewerState :=
  ⟨mats0, fun _ => none, [], none, fun _ => false, fun _ => false, 0⟩

/-- The texture-change effect's per-material body (lines 233–244):
`originalMap = originalMaps.get(material) ?? fallbackTexture` (JS `??` treats
a stored `null` like a miss), `currentApplied = userData.currentMap ??
originalMap`, `nextMap = texture ?? originalMap`; if the blend uniforms exist,
retarget them and zero `uMix`; finally record `currentMap` and reset
`transitionProgress` to `0`. -/
def retargetMaterial (orig : Option (Option ℕ)) (fallback : ℕ) (texture : Option ℕ)
    (m : MaterialState) : MaterialState :=
  let originalMap : ℕ := match orig with
    | some (some t) => t
    | _ => fallback
  let currentApplied : ℕ := match m.currentMap with
    | some (some t) => t
    | _ => originalMap
  let nextMap : ℕ := texture.getD originalMap
  let m1 := match m.blendUniforms with
    | some u => { m with
                   blendUniforms := some
                     ({ u with uPrevMap := currentApplied, uNextMap := nextMap, uMix := 0 }) }
    | none => m
  { m1 with currentMap := some (some nextMap), transitionProgress := some 0 }

/-- The texture-change effect (lines 232–246): for each material in
`materialsRef`, retarget its maps and restart its transition. -/
def textureChangeEffect (fallback : ℕ) (texture : Option ℕ) (s : ViewerState) : ViewerState :=
  { s with mats := (s.materialsList.foldl
      (fun f mid => Function.update f mid
        (retargetMaterial (s.originalMaps mid) fallback texture (f mid)))
      s.mats) }

/-- The `useFrame` body for one material (lines 288–298): materials without
compiled blend uniforms are skipped; `progress = userData.transitionProgress
?? 1`; while `progress < 1` it advances by `delta / 0.8`, clamps at `1`, and
writes the new value into the `uMix` (blend factor) uniform. -/
def advanceMaterial (delta : ℚ) (m : MaterialState) : MaterialState :=
  match m.blendUniforms with
  | none => m
  | some u =>
      let progress := m.transitionProgress.getD 1
      if progress < 1 then
        let next := min 1 (progress + delta / 0.8)
        { m with
            blendUniforms := some { u with uMix := next }
            transitionProgress := some next }
      else m

/-- One `useFrame` callback (lines 287–303): advance every material in
`materialsRef`, then the idle rotation `rotation.y += delta * 0.15`. -/
def frameUpdate (delta : ℚ) (s : ViewerState) : ViewerState :=
  { s with
      mats := s.materialsList.foldl
        (fun f mid => Function.update f mid (advanceMaterial delta (f mid))) s.mats
      rotationY := s.rotationY + delta * 0.15 }

/-- A run of rendered frames with the given elapsed frame times. -/
def frameRun (deltas : List ℚ) (s : ViewerState) : ViewerState :=
  deltas.foldl (fun s' d => frameUpdate d s') s

/-- The `transitionProgress` of material `mid` after a texture change followed
by the given rendered frames. -/
def progressAfter (fallback : ℕ) (texture : Option ℕ) (s : ViewerState) (mid : ℕ)
    (deltas : List ℚ) : Option ℚ :=
  ((frameRun deltas (textureChangeEffect fallback texture s)).mats mid).transitionProgress

/-- The `uMix` (blend factor) uniform of material `mid` after a texture change
followed by the given rendered frames. -/
def uMixAfter (fallback : ℕ) (texture : Option ℕ) (s : ViewerState) (mid : ℕ)
    (deltas : List ℚ) : Option ℚ :=
  (((frameRun deltas (textureChangeEffect fallback texture s)).mats mid).blendUniforms).map
    Uniforms.uMix

/-! ### Decal projector (C8) -/

/-- The sticker transform handed in by the UI. -/
structure StickerTransform where
  position : V3
  rotationDeg : V3
  scale : ℚ
  deriving DecidableEq

/-- `deg * Math.PI / 180`, carried exactly as the rational coefficient of `π`
(the `π` factor is symbolic: a rotation of `d` degrees is `(d / 180)·π`
radians). -/
def degToRadPiCoeff (deg : ℚ) : ℚ := deg / 180

/-- The props of a rendered `<Decal>`: target mesh, position, rotation (each
component in radians as a coefficient of `π`), uniform scale, and sticker
texture. -/
structure DecalProps where
  mesh : ℕ
  position : V3
  rotationPiCoeff : V3
  scale : ℚ
  map : ℕ
  deriving DecidableEq

/-- The conditional decal render (lines 308–331): a decal is emitted exactly
when a sticker texture, a sticker transform and a captured target mesh all
exist, positioned at the transform's position, rotated by each component
converted from degrees to radians, at the transform's uniform scale. -/
def renderDecal (stickerTexture : Option ℕ) (transform : Option StickerTransform)
    (target : Option ℕ) : Option DecalProps :=
  match stickerTexture, transform, target with
  | some tex, some t, some mid =>
      some ⟨mid, t.position,
        ⟨degToRadPiCoeff t.rotationDeg.x, degToRadPiCoeff t.rotationDeg.y,
          degToRadPiCoeff t.rotationDeg.z⟩,
        t.scale, tex⟩
  | _, _, _ => none

/-- A completely fresh material record: authored map absent, PBR scalars
undefined, nothing patched. -/
def demoFresh : ℕ → MaterialState :=
  fun _ => ⟨none, none, none, false, 0, false, none, none, none, none⟩

/-- A two-mesh scene in which material `10` is shared by both meshes. -/
def demoScene : List MeshNode := [⟨0, [10, 11]⟩, ⟨1, [10]⟩]

/-- A one-mesh first model: mesh `0` with material `10`. -/
def demoMeshesA : List MeshNode := [⟨0, [10]⟩]

/-- A one-mesh second model: mesh `1` with material `20`. -/
def demoMeshesB : List MeshNode := [⟨1, [20]⟩]

/-- Compiled blend uniforms for a concrete patched material. -/
def demoUniforms : Uniforms := ⟨0, 0, 0, 1⟩

/-- A concrete patched material with compiled uniforms. -/
def demoPatchedMat : MaterialState :=
  ⟨none, some 0.2, some 0.6, true, 1, true, some demoUniforms, some none, none, none⟩

/-- A viewer with a single patched material `10`. -/
def demoViewer : ViewerState :=
  ⟨fun _ => demoPatchedMat, fun _ => none, [10], none, fun _ => false, fun _ => false, 0⟩

/-! ### Theorems -/

theorem glslClamp_eq_self {x lo hi : ℚ} (h0 : lo ≤ x) (h1 : x ≤ hi) :
    glslClamp x lo hi = x := by
  simp [glslClamp, max_eq_left h0, min_eq_left h1]

theorem glslClamp_nonneg (x hi : ℚ) (h : 0 ≤ hi) : 0 ≤ glslClamp x 0 hi := by
  unfold glslClamp
  exact le_min (le_max_right _ _) h

theorem glslClamp_le_hi (x lo hi : ℚ) : glslClamp x lo hi ≤ hi := by
  unfold glslClamp
  exact min_le_right _ _

theorem hermiteCurve_le_one {t : ℚ} (h0 : 0 ≤ t) : hermiteCurve t ≤ 1 := by
  unfold hermiteCurve
  nlinarith [mul_nonneg (sq_nonneg (1 - t)) (by linarith : (0:ℚ) ≤ 1 + 2 * t)]

theorem glslSmoothstep_le_one (e0 e1 x : ℚ) : glslSmoothstep e0 e1 x ≤ 1 := by
  unfold glslSmoothstep
  exact hermiteCurve_le_one (glslClamp_nonneg _ _ zero_le_one)

theorem mixV4_one (x y : Vec4) : mixV4 x y 1 = y := by
  simp [mixV4, glslMix]

/-- C5: for every patched material and shaded fragment, the injected color
stage computes exactly the spec's formula — noise sampled at the uv scaled by
8 and offset by `2 × blendFactor` in both axes, `noiseEdge = smoothstep(blendFactor
− 0.2, blendFactor + 0.2, noiseSample)`, `blend = max(noiseEdge, clamped
blendFactor)`, base color multiplied by `mix(prev, next, blend)` — and at
`blendFactor = 1` the result is fully the next map, regardless of noise. -/
theorem claim5_color_stage (uPrev uNext : Vec2 → Vec4) (uNoise : Vec2 → ℚ)
    (u : ℚ) (uv : Vec2) (base : Vec4) (h0 : 0 ≤ u) (h1 : u ≤ 1) :
    patchedMapFragment uPrev uNext uNoise u uv base
        = specColorStage uPrev uNext uNoise u uv base
      ∧ (u = 1 →
          patchedMapFragment uPrev uNext uNoise u uv base = mulV4 base (uNext uv)) := by
  have hc : glslClamp u 0 1 = u := glslClamp_eq_self h0 h1
  constructor
  · simp only [patchedMapFragment, specColorStage]
    rw [hc, mul_comm u 2]
  · intro hu
    subst hu
    have hc1 : glslClamp 1 0 1 = (1 : ℚ) := glslClamp_eq_self (by norm_num) (by norm_num)
    simp only [patchedMapFragment]
    rw [hc1, max_eq_right (glslSmoothstep_le_one _ _ _), mixV4_one]

/-- Witness for C5 at `blendFactor = 1/2` on concrete textures. -/
theorem claim5_color_stage_witness :
    patchedMapFragment demoPrevMap demoNextMap demoNoiseMap (1/2) ⟨0, 0⟩ ⟨1, 1, 1, 1⟩
        = specColorStage demoPrevMap demoNextMap demoNoiseMap (1/2) ⟨0, 0⟩ ⟨1, 1, 1, 1⟩
      ∧ ((1 : ℚ)/2 = 1 →
          patchedMapFragment demoPrevMap demoNextMap demoNoiseMap (1/2) ⟨0, 0⟩ ⟨1, 1, 1, 1⟩
            = mulV4 ⟨1, 1, 1, 1⟩ (demoNextMap ⟨0, 0⟩)) :=
  claim5_color_stage demoPrevMap demoNextMap demoNoiseMap (1/2) ⟨0, 0⟩ ⟨1, 1, 1, 1⟩
    (by norm_num) (by norm_num)

theorem V3.minc_affine {a : ℚ} (ha : 0 ≤ a) (c p q : V3) :
    V3.minc (V3.add (V3.smul a p) c) (V3.add (V3.smul a q) c)
      = V3.add (V3.smul a (V3.minc p q)) c := by
  simp only [V3.minc, V3.add, V3.smul, V3.mk.injEq]
  refine ⟨?_, ?_, ?_⟩ <;> rw [min_add_add_right, mul_min_of_nonneg _ _ ha]

theorem V3.maxc_affine {a : ℚ} (ha : 0 ≤ a) (c p q : V3) :
    V3.maxc (V3.add (V3.smul a p) c) (V3.add (V3.smul a q) c)
      = V3.add (V3.smul a (V3.maxc p q)) c := by
  simp only [V3.maxc, V3.add, V3.smul, V3.mk.injEq]
  refine ⟨?_, ?_, ?_⟩ <;> rw [max_add_add_right, mul_max_of_nonneg _ _ ha]

theorem foldl_minc_affine {a : ℚ} (ha : 0 ≤ a) (c : V3) (ps : List V3) (p0 : V3) :
    (ps.map (fun p => V3.add (V3.smul a p) c)).foldl V3.minc (V3.add (V3.smul a p0) c)
      = V3.add (V3.smul a (ps.foldl V3.minc p0)) c := by
  induction ps generalizing p0 with
  | nil => rfl
  | cons q qs ih => simp only [List.map_cons, List.foldl_cons, V3.minc_affine ha, ih]

theorem foldl_maxc_affine {a : ℚ} (ha : 0 ≤ a) (c : V3) (ps : List V3) (p0 : V3) :
    (ps.map (fun p => V3.add (V3.smul a p) c)).foldl V3.maxc (V3.add (V3.smul a p0) c)
      = V3.add (V3.smul a (ps.foldl V3.maxc p0)) c := by
  induction ps generalizing p0 with
  | nil => rfl
  | cons q qs ih => simp only [List.map_cons, List.foldl_cons, V3.maxc_affine ha, ih]

theorem V3.one_smul (v : V3) : V3.smul 1 v = v := by
  simp [V3.smul]

theorem maxExtent_smul {k : ℚ} (hk : 0 ≤ k) (s : V3) :
    maxExtent (V3.smul k s) = k * maxExtent s := by
  simp only [maxExtent, V3.smul]
  rw [mul_max_of_nonneg _ _ hk, mul_max_of_nonneg _ _ hk]

theorem frameScale_pos (g : GroupState) : 0 < frameScale g := by
  unfold frameScale
  split
  · next h => exact div_pos (by norm_num) h
  · exact one_pos

theorem autoFrame_pts (g : GroupState) : (autoFrame g).pts = g.pts := rfl

theorem autoFrame_scale (g : GroupState) : (autoFrame g).scale = frameScale g := rfl

theorem boxSize_eq_smul (g : GroupState) (hk : 0 ≤ g.scale) (p : V3) (ps : List V3)
    (hp : g.pts = p :: ps) :
    g.boxSize = V3.smul g.scale (V3.sub (ps.foldl V3.maxc p) (ps.foldl V3.minc p)) := by
  unfold GroupState.boxSize GroupState.worldPts
  rw [hp]
  simp only [List.map_cons, lowerCorner, upperCorner, foldl_minc_affine hk, foldl_maxc_affine hk]
  simp only [V3.sub, V3.add, V3.smul, V3.mk.injEq]
  refine ⟨by ring, by ring, by ring⟩

theorem boxCenter_cons (pos : V3) {k : ℚ} (hk : 0 ≤ k) (p : V3) (ps : List V3) :
    GroupState.boxCenter ⟨pos, k, p :: ps⟩
      = V3.add (V3.smul k (V3.smul (1/2) (V3.add (ps.foldl V3.minc p) (ps.foldl V3.maxc p))))
          pos := by
  unfold GroupState.boxCenter GroupState.worldPts
  simp only [List.map_cons, lowerCorner, upperCorner, foldl_minc_affine hk, foldl_maxc_affine hk]
  simp only [V3.add, V3.smul, V3.mk.injEq]
  refine ⟨by ring, by ring, by ring⟩

theorem recentered_boxCenter (pos : V3) {k : ℚ} (hk : 0 ≤ k) (pts : List V3) :
    GroupState.boxCenter ⟨V3.sub pos (GroupState.boxCenter ⟨pos, k, pts⟩), k, pts⟩
      = V3.zero := by
  cases pts with
  | nil => rfl
  | cons p ps =>
    rw [boxCenter_cons pos hk, boxCenter_cons _ hk]
    simp only [V3.add, V3.smul, V3.sub, V3.zero, V3.mk.injEq]
    refine ⟨by ring, by ring, by ring⟩

theorem autoFrame_boxCenter (g : GroupState) : (autoFrame g).boxCenter = V3.zero := by
  obtain ⟨pos, s, pts⟩ := g
  exact recentered_boxCenter pos (frameScale_pos _).le pts

theorem autoFrame_maxExtent (g : GroupState) (hs : g.scale = 1)
    (hnd : 0 < maxExtent g.boxSize) :
    maxExtent (autoFrame g).boxSize = 2.4 := by
  cases hp : g.pts with
  | nil =>
    exfalso
    have hz : g.boxSize = V3.zero := by
      unfold GroupState.boxSize GroupState.worldPts
      rw [hp]
      rfl
    rw [hz] at hnd
    simp [maxExtent, V3.zero] at hnd
  | cons p ps =>
    have hS : g.boxSize = V3.sub (ps.foldl V3.maxc p) (ps.foldl V3.minc p) := by
      rw [boxSize_eq_smul g (by rw [hs]; exact zero_le_one) p ps hp, hs, V3.one_smul]
    have hM : 0 < maxExtent (V3.sub (ps.foldl V3.maxc p) (ps.foldl V3.minc p)) := by
      rw [← hS]; exact hnd
    have hfs : frameScale g = 2.4 / maxExtent (V3.sub (ps.foldl V3.maxc p) (ps.foldl V3.minc p)) := by
      unfold frameScale
      rw [if_pos hnd, hS]
    have h2 : (autoFrame g).boxSize
        = V3.smul (frameScale g) (V3.sub (ps.foldl V3.maxc p) (ps.foldl V3.minc p)) := by
      rw [boxSize_eq_smul (autoFrame g) (frameScale_pos g).le p ps (by rw [autoFrame_pts, hp]),
        autoFrame_scale]
    rw [h2, maxExtent_smul (frameScale_pos g).le, hfs, div_mul_cancel₀ _ (ne_of_gt hM)]

/-- C4 (amended): when the auto-frame step runs with the group at unit scale —
as on the first model load — it scales the hierarchy by `2.4 / largestExtent`
(falling back to `1`, with no division, when the measured extent is
degenerate), after which the box's largest extent is exactly `2.4`; the box
center is moved exactly to the origin. -/
theorem claim4_auto_frame (g : GroupState) (hs : g.scale = 1) :
    ((0 : ℚ) < maxExtent g.boxSize →
        (autoFrame g).scale = 2.4 / maxExtent g.boxSize
          ∧ maxExtent (autoFrame g).boxSize = 2.4)
      ∧ (¬ (0 : ℚ) < maxExtent g.boxSize → (autoFrame g).scale = 1)
      ∧ (autoFrame g).boxCenter = V3.zero := by
  refine ⟨fun h => ⟨?_, autoFrame_maxExtent g hs h⟩, fun h => ?_, autoFrame_boxCenter g⟩
  · rw [autoFrame_scale]
    unfold frameScale
    rw [if_pos h]
  · rw [autoFrame_scale]
    unfold frameScale
    rw [if_neg h]

/-- Witness for C4 on the concrete first-load group. -/
theorem claim4_auto_frame_witness :
    ((0 : ℚ) < maxExtent demoGroupA.boxSize →
        (autoFrame demoGroupA).scale = 2.4 / maxExtent demoGroupA.boxSize
          ∧ maxExtent (autoFrame demoGroupA).boxSize = 2.4)
      ∧ (¬ (0 : ℚ) < maxExtent demoGroupA.boxSize → (autoFrame demoGroupA).scale = 1)
      ∧ (autoFrame demoGroupA).boxCenter = V3.zero :=
  claim4_auto_frame demoGroupA rfl

/-- C4 counterexample to the claim as stated: the group and its transform
persist across model loads, and the step sets (instead of multiplies) the
scale from a box measured under the previous load's scale.  Framing a
unit segment and then attaching and framing a length-2 segment leaves the
largest extent at `1`, not `2.4`, although the new model's geometry is
non-degenerate. -/
theorem claim4_counterexample :
    maxExtent (autoFrame (attachScene (autoFrame demoGroupA) demoSceneB)).boxSize = 1
      ∧ ((1 : ℚ) ≠ 2.4) := by
  constructor
  · norm_num [demoGroupA, demoSceneB, attachScene, autoFrame, frameScale, maxExtent,
      GroupState.boxSize, GroupState.boxCenter, GroupState.worldPts, lowerCorner, upperCorner,
      V3.zero, V3.add, V3.sub, V3.smul, V3.minc, V3.maxc, List.foldl, List.map,
      max_def, min_def]
  · norm_num

/-- C6: the model failure boundary is a two-state machine: an unhandled error
while loading/rendering the subtree moves it to Failed, where it renders the
fallback notice instead of the 3D content; a prop update moves Failed back to
Healthy exactly when the identifying key — composed from the model URL and the
active texture identifier — changes; updates never create a failure and an
unchanged key never clears one (no automatic retry). -/
theorem claim6_error_boundary (s : BoundaryState) (e : String)
    (m m' : String) (t t' : Option String) :
    (getDerivedStateFromError e s).error = some e
      ∧ boundaryRender (getDerivedStateFromError e s) = .fallback
      ∧ (s.error.isSome → boundaryRender s = .fallback)
      ∧ (s.error = none → boundaryRender s = .children)
      ∧ (s.error.isSome →
          ((boundaryDidUpdate (resetKey m t) (resetKey m' t') s).error = none
            ↔ resetKey m t ≠ resetKey m' t'))
      ∧ (s.error = none → boundaryDidUpdate (resetKey m t) (resetKey m' t') s = s) := by
  refine ⟨rfl, rfl, ?_, ?_, ?_, ?_⟩
  · intro h
    simp [boundaryRender, h]
  · intro h
    simp [boundaryRender, h]
  · intro h
    obtain ⟨x, hx⟩ := Option.isSome_iff_exists.mp h
    by_cases hk : resetKey m t = resetKey m' t'
    · simp [boundaryDidUpdate, hk, hx]
    · simp [boundaryDidUpdate, hk, hx]
  · intro h
    simp [boundaryDidUpdate, h]

/-- Witness for C6: a failed boundary clears exactly on a key change. -/
theorem claim6_error_boundary_witness :
    (getDerivedStateFromError "load failed" ⟨none⟩).error = some "load failed"
      ∧ boundaryRender (getDerivedStateFromError "load failed" ⟨none⟩) = .fallback
      ∧ ((⟨some "load failed"⟩ : BoundaryState).error.isSome →
          boundaryRender ⟨some "load failed"⟩ = .fallback)
      ∧ ((⟨some "load failed"⟩ : BoundaryState).error = none →
          boundaryRender ⟨some "load failed"⟩ = .children)
      ∧ ((⟨some "load failed"⟩ : BoundaryState).error.isSome →
          ((boundaryDidUpdate (resetKey "bad.glb" none) (resetKey "good.glb" none)
              ⟨some "load failed"⟩).error = none
            ↔ resetKey "bad.glb" none ≠ resetKey "good.glb" none))
      ∧ ((⟨some "load failed"⟩ : BoundaryState).error = none →
          boundaryDidUpdate (resetKey "bad.glb" none) (resetKey "good.glb" none)
              ⟨some "load failed"⟩
            = ⟨some "load failed"⟩) := by
  have h := claim6_error_boundary ⟨some "load failed"⟩ "load failed" "bad.glb" "good.glb"
    none none
  exact ⟨rfl, rfl, h.2.2.1, h.2.2.2.1, h.2.2.2.2.1, h.2.2.2.2.2⟩

theorem allStale_step (provisionalClear : Bool) (s : SlotState) (e : SlotEvent)
    (h : ∀ r ∈ s.reqs.tail, r.cancelled = true) :
    ∀ r ∈ (slotStep provisionalClear s e).reqs.tail, r.cancelled = true := by
  cases e with
  | select url =>
    cases url with
    | none =>
      cases hq : s.reqs with
      | nil => simp [slotStep, selectStep, cancelCurrent, hq]
      | cons a as =>
        simp only [slotStep, selectStep, hq, cancelCurrent, List.tail_cons]
        intro r hr
        exact h r (by rw [hq]; exact hr)
    | some u =>
      cases hq : s.reqs with
      | nil => simp [slotStep, selectStep, cancelCurrent, hq]
      | cons a as =>
        simp only [slotStep, selectStep, hq, cancelCurrent, List.tail_cons]
        intro r hr
        rcases List.mem_cons.mp hr with h1 | h2
        · rw [h1]
        · exact h r (by rw [hq]; exact h2)
  | finish i ok =>
    have hre : (slotStep provisionalClear s (.finish i ok)).reqs = s.reqs := by
      simp only [slotStep, finishStep]
      cases s.reqs[i]? with
      | none => rfl
      | some r =>
        by_cases hc : r.cancelled <;> simp [hc]
    rw [hre]
    exact h

theorem runSlot_stale (provisionalClear : Bool) (evs : List SlotEvent) :
    ∀ r ∈ (runSlot provisionalClear evs).reqs.tail, r.cancelled = true := by
  have key : ∀ (s : SlotState), (∀ r ∈ s.reqs.tail, r.cancelled = true) →
      ∀ r ∈ (evs.foldl (slotStep provisionalClear) s).reqs.tail, r.cancelled = true := by
    induction evs with
    | nil => intro s hs; exact hs
    | cons e es ih =>
      intro s hs
      exact ih _ (allStale_step provisionalClear s e hs)
  exact key initSlot (by intro r hr; simp [initSlot] at hr)

theorem stale_finish_noop (s : SlotState) (h : ∀ r ∈ s.reqs.tail, r.cancelled = true)
    (i : ℕ) (hi : 0 < i) (ok : Bool) : finishStep i ok s = s := by
  unfold finishStep
  cases hg : s.reqs[i]? with
  | none => rfl
  | some r =>
    have hr : r ∈ s.reqs.tail := by
      cases hq : s.reqs with
      | nil => rw [hq] at hg; simp at hg
      | cons a as =>
        obtain ⟨n, rfl⟩ : ∃ n, i = n + 1 := ⟨i - 1, (Nat.succ_pred_eq_of_pos hi).symm⟩
        rw [hq, List.getElem?_cons_succ] at hg
        obtain ⟨hlt, hget⟩ := List.getElem?_eq_some.mp hg
        rw [List.tail_cons, ← hget]
        exact List.getElem_mem hlt
    simp [h r hr]

/-- C2: for every load slot (texture slot: `provisionalClear = true`; sticker
slot: `provisionalClear = false`) and every history of selection changes and
completions, every request but the most recently issued one carries a set
`cancelled` flag, so a completion of any older request — success or failure —
is a complete no-op: its result is never committed; the most recent request's
success, by contrast, does commit its texture. -/
theorem claim2_stale_load_discarded (provisionalClear : Bool) (evs : List SlotEvent)
    (i : ℕ) (ok : Bool) (hi : 0 < i) :
    (∀ r ∈ (runSlot provisionalClear evs).reqs.tail, r.cancelled = true)
      ∧ slotStep provisionalClear (runSlot provisionalClear evs) (.finish i ok)
          = runSlot provisionalClear evs
      ∧ (∀ (u : String) (s : SlotState),
          (finishStep 0 true (selectStep provisionalClear (some u) s)).committed
            = some u) := by
  refine ⟨runSlot_stale _ _, ?_, ?_⟩
  · exact stale_finish_noop _ (runSlot_stale _ _) i hi ok
  · intro u s
    simp [finishStep, selectStep]

/-- Witness for C2: the "Brushed Metal, then UV Grid" scenario — completing
the superseded request changes nothing. -/
theorem claim2_stale_load_discarded_witness :
    (∀ r ∈ (runSlot true
        [.select (some "metal.jpg"), .select (some "uv-grid.jpg")]).reqs.tail,
      r.cancelled = true)
      ∧ slotStep true
            (runSlot true [.select (some "metal.jpg"), .select (some "uv-grid.jpg")])
            (.finish 1 true)
          = runSlot true [.select (some "metal.jpg"), .select (some "uv-grid.jpg")]
      ∧ (∀ (u : String) (s : SlotState),
          (finishStep 0 true (selectStep true (some u) s)).committed = some u) :=
  claim2_stale_load_discarded true
    [.select (some "metal.jpg"), .select (some "uv-grid.jpg")] 1 true (by norm_num)

/-- C7 counterexample to the claim as stated: the claim (with the spec) says a
failed texture/sticker load is "logged for diagnostics"; the error callbacks
(lines 149–151 and 266–268) write nothing to the console — the console output
of a fresh (uncancelled) failure is empty. -/
theorem claim7_counterexample :
    (textureOnError false (some "uv-grid.jpg")).2 = []
      ∧ (stickerOnError false (some "sticker.png")).2 = [] :=
  ⟨rfl, rfl⟩

/-- C7 (amended): when a texture load fails, the active override texture
becomes null (the model's authored materials are used), and when a sticker
load fails the sticker texture becomes null (no decal); the failure is not
escalated — the callback touches nothing but the committed texture state, and
a completed failure of the current request only nulls the committed state —
but, contrary to the claim, nothing is logged either: the callbacks emit no
diagnostics. -/
theorem claim7_silent_degradation (committed c2 : Option String) :
    textureOnError false committed = (none, [])
      ∧ stickerOnError false c2 = (none, [])
      ∧ (∀ c, textureOnError true c = (c, []))
      ∧ (∀ c, stickerOnError true c = (c, []))
      ∧ (∀ (u : String) (s : SlotState),
          finishStep 0 false (selectStep true (some u) s)
            = { selectStep true (some u) s with committed := none }) := by
  exact ⟨rfl, rfl, fun c => rfl, fun c => rfl, fun u s => by simp [finishStep, selectStep]⟩

theorem recordOriginalMap_mats (s : ViewerState) (a : ℕ) :
    (recordOriginalMap s a).mats = s.mats := by
  unfold recordOriginalMap
  split_ifs <;> rfl

theorem recordOriginalMap_materialsList (s : ViewerState) (a : ℕ) :
    (recordOriginalMap s a).materialsList = s.materialsList := by
  unfold recordOriginalMap
  split_ifs <;> rfl

theorem recordOriginalMap_stickerTarget (s : ViewerState) (a : ℕ) :
    (recordOriginalMap s a).stickerTarget = s.stickerTarget := by
  unfold recordOriginalMap
  split_ifs <;> rfl

theorem recordOriginalMap_originalMaps (s : ViewerState) (a mid : ℕ) :
    (recordOriginalMap s a).originalMaps mid
      = if mid = a ∧ (s.originalMaps a).isNone
        then some ((s.mats a).map) else s.originalMaps mid := by
  unfold recordOriginalMap
  by_cases hm : mid = a
  · subst hm
    split_ifs with h1 h2 <;> simp_all [Function.update_apply]
  · split_ifs with h1 h2 <;> simp_all [Function.update_apply]

theorem installHook_mats (s : ViewerState) (a mid : ℕ) :
    (installHook s a).mats mid
      = if mid = a ∧ (s.mats a).patched = false
        then ({ s.mats a with
                 hookInstalls := (s.mats a).hookInstalls + 1
                 patched := true
                 needsUpdate := true })
        else s.mats mid := by
  unfold installHook
  by_cases hm : mid = a
  · subst hm
    split_ifs with h1 h2 <;> simp_all [Function.update_apply]
  · split_ifs with h1 h2 <;> simp_all [Function.update_apply]

theorem installHook_materialsList (s : ViewerState) (a : ℕ) :
    (installHook s a).materialsList = s.materialsList := by
  unfold installHook
  split_ifs <;> rfl

theorem installHook_stickerTarget (s : ViewerState) (a : ℕ) :
    (installHook s a).stickerTarget = s.stickerTarget := by
  unfold installHook
  split_ifs <;> rfl

theorem installHook_originalMaps (s : ViewerState) (a : ℕ) :
    (installHook s a).originalMaps = s.originalMaps := by
  unfold installHook
  split_ifs <;> rfl

theorem defaultMetalness_mats (s : ViewerState) (a mid : ℕ) :
    (defaultMetalness s a).mats mid
      = if mid = a ∧ (s.mats a).metalness = none
        then ({ s.mats a with metalness := some 0.2 })
        else s.mats mid := by
  unfold defaultMetalness
  by_cases hm : mid = a
  · subst hm
    split_ifs with h1 h2 <;> simp_all [Function.update_apply]
  · split_ifs with h1 h2 <;> simp_all [Function.update_apply]

theorem defaultMetalness_materialsList (s : ViewerState) (a : ℕ) :
    (defaultMetalness s a).materialsList = s.materialsList := by
  unfold defaultMetalness
  split_ifs <;> rfl

theorem defaultMetalness_stickerTarget (s : ViewerState) (a : ℕ) :
    (defaultMetalness s a).stickerTarget = s.stickerTarget := by
  unfold defaultMetalness
  split_ifs <;> rfl

theorem defaultMetalness_originalMaps (s : ViewerState) (a : ℕ) :
    (defaultMetalness s a).originalMaps = s.originalMaps := by
  unfold defaultMetalness
  split_ifs <;> rfl

theorem defaultRoughness_mats (s : ViewerState) (a mid : ℕ) :
    (defaultRoughness s a).mats mid
      = if mid = a ∧ (s.mats a).roughness = none
        then ({ s.mats a with roughness := some 0.6 })
        else s.mats mid := by
  unfold defaultRoughness
  by_cases hm : mid = a
  · subst hm
    split_ifs with h1 h2 <;> simp_all [Function.update_apply]
  · split_ifs with h1 h2 <;> simp_all [Function.update_apply]

theorem defaultRoughness_materialsList (s : ViewerState) (a : ℕ) :
    (defaultRoughness s a).materialsList = s.materialsList := by
  unfold defaultRoughness
  split_ifs <;> rfl

theorem defaultRoughness_stickerTarget (s : ViewerState) (a : ℕ) :
    (defaultRoughness s a).stickerTarget = s.stickerTarget := by
  unfold defaultRoughness
  split_ifs <;> rfl

theorem defaultRoughness_originalMaps (s : ViewerState) (a : ℕ) :
    (defaultRoughness s a).originalMaps = s.originalMaps := by
  unfold defaultRoughness
  split_ifs <;> rfl

theorem recordOriginalMapUD_mats (s : ViewerState) (a mid : ℕ) :
    (recordOriginalMapUD s a).mats mid
      = if mid = a ∧ ((s.mats a).originalMapUD = none ∨ (s.mats a).originalMapUD = some none)
        then ({ s.mats a with originalMapUD := some ((s.mats a).map) })
        else s.mats mid := by
  unfold recordOriginalMapUD
  by_cases hm : mid = a
  · subst hm
    split_ifs with h1 h2 <;> simp_all [Function.update_apply]
  · split_ifs with h1 h2 <;> simp_all [Function.update_apply]

theorem recordOriginalMapUD_materialsList (s : ViewerState) (a : ℕ) :
    (recordOriginalMapUD s a).materialsList = s.materialsList := by
  unfold recordOriginalMapUD
  split_ifs <;> rfl

theorem recordOriginalMapUD_stickerTarget (s : ViewerState) (a : ℕ) :
    (recordOriginalMapUD s a).stickerTarget = s.stickerTarget := by
  unfold recordOriginalMapUD
  split_ifs <;> rfl

theorem recordOriginalMapUD_originalMaps (s : ViewerState) (a : ℕ) :
    (recordOriginalMapUD s a).originalMaps = s.originalMaps := by
  unfold recordOriginalMapUD
  split_ifs <;> rfl

theorem pushMaterial_mats (s : ViewerState) (a : ℕ) :
    (pushMaterial s a).mats = s.mats := by
  unfold pushMaterial
  split_ifs <;> rfl

theorem pushMaterial_materialsList (s : ViewerState) (a : ℕ) :
    (pushMaterial s a).materialsList
      = if a ∈ s.materialsList then s.materialsList else s.materialsList ++ [a] := by
  unfold pushMaterial
  split_ifs <;> rfl

theorem pushMaterial_stickerTarget (s : ViewerState) (a : ℕ) :
    (pushMaterial s a).stickerTarget = s.stickerTarget := by
  unfold pushMaterial
  split_ifs <;> rfl

theorem pushMaterial_originalMaps (s : ViewerState) (a : ℕ) :
    (pushMaterial s a).originalMaps = s.originalMaps := by
  unfold pushMaterial
  split_ifs <;> rfl

theorem installHook_patched (s : ViewerState) (a mid : ℕ) :
    ((installHook s a).mats mid).patched
      = if mid = a then true else (s.mats mid).patched := by
  rw [installHook_mats]
  by_cases hm : mid = a
  · subst hm
    split_ifs with h <;> simp_all
  · simp [hm]

theorem installHook_installs (s : ViewerState) (a mid : ℕ) :
    ((installHook s a).mats mid).hookInstalls
      = if mid = a ∧ (s.mats a).patched = false
        then (s.mats a).hookInstalls + 1 else (s.mats mid).hookInstalls := by
  rw [installHook_mats]
  split_ifs <;> rfl

theorem installHook_origUD (s : ViewerState) (a mid : ℕ) :
    ((installHook s a).mats mid).originalMapUD = (s.mats mid).originalMapUD := by
  rw [installHook_mats]
  split_ifs with h
  · rw [h.1]
  · rfl

theorem defaultMetalness_patched (s : ViewerState) (a mid : ℕ) :
    ((defaultMetalness s a).mats mid).patched = (s.mats mid).patched := by
  rw [defaultMetalness_mats]
  split_ifs with h
  · rw [h.1]
  · rfl

theorem defaultMetalness_installs (s : ViewerState) (a mid : ℕ) :
    ((defaultMetalness s a).mats mid).hookInstalls = (s.mats mid).hookInstalls := by
  rw [defaultMetalness_mats]
  split_ifs with h
  · rw [h.1]
  · rfl

theorem defaultMetalness_origUD (s : ViewerState) (a mid : ℕ) :
    ((defaultMetalness s a).mats mid).originalMapUD = (s.mats mid).originalMapUD := by
  rw [defaultMetalness_mats]
  split_ifs with h
  · rw [h.1]
  · rfl

theorem defaultRoughness_patched (s : ViewerState) (a mid : ℕ) :
    ((defaultRoughness s a).mats mid).patched = (s.mats mid).patched := by
  rw [defaultRoughness_mats]
  split_ifs with h
  · rw [h.1]
  · rfl

theorem defaultRoughness_installs (s : ViewerState) (a mid : ℕ) :
    ((defaultRoughness s a).mats mid).hookInstalls = (s.mats mid).hookInstalls := by
  rw [defaultRoughness_mats]
  split_ifs with h
  · rw [h.1]
  · rfl

theorem defaultRoughness_origUD (s : ViewerState) (a mid : ℕ) :
    ((defaultRoughness s a).mats mid).originalMapUD = (s.mats mid).originalMapUD := by
  rw [defaultRoughness_mats]
  split_ifs with h
  · rw [h.1]
  · rfl

theorem recordOriginalMapUD_patched (s : ViewerState) (a mid : ℕ) :
    ((recordOriginalMapUD s a).mats mid).patched = (s.mats mid).patched := by
  rw [recordOriginalMapUD_mats]
  split_ifs with h
  · rw [h.1]
  · rfl

theorem recordOriginalMapUD_installs (s : ViewerState) (a mid : ℕ) :
    ((recordOriginalMapUD s a).mats mid).hookInstalls = (s.mats mid).hookInstalls := by
  rw [recordOriginalMapUD_mats]
  split_ifs with h
  · rw [h.1]
  · rfl

theorem recordOriginalMapUD_origUD_self (s : ViewerState) (a : ℕ) :
    (((recordOriginalMapUD s a).mats a).originalMapUD).isSome = true := by
  rw [recordOriginalMapUD_mats]
  split_ifs with h
  · simp
  · rcases ho : (s.mats a).originalMapUD with _ | o
    · exact absurd ⟨rfl, Or.inl ho⟩ h
    · rcases o with _ | t
      · exact absurd ⟨rfl, Or.inr ho⟩ h
      · simp [ho]

theorem patchOne_stickerTarget (s : ViewerState) (a : ℕ) :
    (patchOneMaterial s a).stickerTarget = s.stickerTarget := by
  unfold patchOneMaterial
  rw [pushMaterial_stickerTarget, recordOriginalMapUD_stickerTarget,
    defaultRoughness_stickerTarget, defaultMetalness_stickerTarget, installHook_stickerTarget,
    recordOriginalMap_stickerTarget]

theorem patchOne_materialsList (s : ViewerState) (a : ℕ) :
    (patchOneMaterial s a).materialsList
      = if a ∈ s.materialsList then s.materialsList else s.materialsList ++ [a] := by
  unfold patchOneMaterial
  rw [pushMaterial_materialsList, recordOriginalMapUD_materialsList,
    defaultRoughness_materialsList, defaultMetalness_materialsList, installHook_materialsList,
    recordOriginalMap_materialsList]

theorem patchOne_originalMaps (s : ViewerState) (a mid : ℕ) :
    (patchOneMaterial s a).originalMaps mid
      = if mid = a ∧ (s.originalMaps a).isNone
        then some ((s.mats a).map) else s.originalMaps mid := by
  unfold patchOneMaterial
  rw [pushMaterial_originalMaps, recordOriginalMapUD_originalMaps, defaultRoughness_originalMaps,
    defaultMetalness_originalMaps, installHook_originalMaps, recordOriginalMap_originalMaps]

theorem patchOne_patched (s : ViewerState) (a mid : ℕ) :
    ((patchOneMaterial s a).mats mid).patched
      = if mid = a then true else (s.mats mid).patched := by
  unfold patchOneMaterial
  rw [pushMaterial_mats, recordOriginalMapUD_patched, defaultRoughness_patched,
    defaultMetalness_patched, installHook_patched, recordOriginalMap_mats]

theorem patchOne_installs (s : ViewerState) (a mid : ℕ) :
    ((patchOneMaterial s a).mats mid).hookInstalls
      = if mid = a ∧ (s.mats a).patched = false
        then (s.mats a).hookInstalls + 1 else (s.mats mid).hookInstalls := by
  unfold patchOneMaterial
  rw [pushMaterial_mats, recordOriginalMapUD_installs, defaultRoughness_installs,
    defaultMetalness_installs, installHook_installs, recordOriginalMap_mats]

theorem patchOne_origUD_self (s : ViewerState) (a : ℕ) :
    (((patchOneMaterial s a).mats a).originalMapUD).isSome = true := by
  unfold patchOneMaterial
  rw [pushMaterial_mats]
  exact recordOriginalMapUD_origUD_self _ a

theorem patchOne_mats_ne (s : ViewerState) (a mid : ℕ) (hm : mid ≠ a) :
    (patchOneMaterial s a).mats mid = s.mats mid := by
  simp [patchOneMaterial, pushMaterial_mats, recordOriginalMapUD_mats, defaultRoughness_mats,
    defaultMetalness_mats, installHook_mats, recordOriginalMap_mats, hm]

theorem patchList_patched (l : List ℕ) (s : ViewerState) (mid : ℕ) :
    ((l.foldl patchOneMaterial s).mats mid).patched
      = if mid ∈ l then true else (s.mats mid).patched := by
  induction l generalizing s with
  | nil => simp
  | cons a l' ih =>
    rw [List.foldl_cons, ih]
    by_cases hm : mid = a
    · simp [patchOne_patched, hm, List.mem_cons]
    · rw [patchOne_mats_ne _ _ _ hm]
      simp [hm, List.mem_cons]

theorem patchList_installs (l : List ℕ) (s : ViewerState) (mid : ℕ) :
    ((l.foldl patchOneMaterial s).mats mid).hookInstalls
      = if (s.mats mid).patched = false ∧ mid ∈ l
        then (s.mats mid).hookInstalls + 1 else (s.mats mid).hookInstalls := by
  induction l generalizing s with
  | nil => simp
  | cons a l' ih =>
    rw [List.foldl_cons, ih]
    by_cases hm : mid = a
    · subst hm
      by_cases hp : (s.mats mid).patched = false
      · simp [patchOne_patched, patchOne_installs, hp, List.mem_cons]
      · simp [patchOne_patched, patchOne_installs, hp, List.mem_cons]
    · rw [patchOne_mats_ne _ _ _ hm]
      simp [hm, List.mem_cons]

theorem patchList_origUD (l : List ℕ) (s : ViewerState) (mid : ℕ) :
    (((l.foldl patchOneMaterial s).mats mid).originalMapUD).isSome = true
      ↔ (((s.mats mid).originalMapUD).isSome = true ∨ mid ∈ l) := by
  induction l generalizing s with
  | nil => simp
  | cons a l' ih =>
    rw [List.foldl_cons, ih]
    by_cases hm : mid = a
    · subst hm
      simp [patchOne_origUD_self, List.mem_cons]
    · rw [patchOne_mats_ne _ _ _ hm]
      simp [hm, List.mem_cons, or_assoc]

theorem patchOne_origMaps_self (s : ViewerState) (a : ℕ) :
    ((patchOneMaterial s a).originalMaps a).isSome = true := by
  rw [patchOne_originalMaps]
  split_ifs with h
  · simp
  · rcases ho : s.originalMaps a with _ | o
    · exact absurd ⟨rfl, by simp [ho]⟩ h
    · simp [ho]

theorem patchList_origMaps (l : List ℕ) (s : ViewerState) (mid : ℕ) :
    ((l.foldl patchOneMaterial s).originalMaps mid).isSome = true
      ↔ ((s.originalMaps mid).isSome = true ∨ mid ∈ l) := by
  induction l generalizing s with
  | nil => simp
  | cons a l' ih =>
    rw [List.foldl_cons, ih]
    by_cases hm : mid = a
    · subst hm
      simp [patchOne_origMaps_self, List.mem_cons]
    · rw [patchOne_originalMaps]
      simp [hm, List.mem_cons, or_assoc]

theorem patchList_mem (l : List ℕ) (s : ViewerState) (mid : ℕ) :
    mid ∈ (l.foldl patchOneMaterial s).materialsList
      ↔ (mid ∈ s.materialsList ∨ mid ∈ l) := by
  induction l generalizing s with
  | nil => simp
  | cons a l' ih =>
    rw [List.foldl_cons, ih, patchOne_materialsList]
    by_cases hmem : a ∈ s.materialsList
    · by_cases hm : mid = a
      · subst hm
        simp [hmem, List.mem_cons]
      · simp [hmem, hm, List.mem_cons]
    · simp [hmem, List.mem_cons, List.mem_append, or_assoc]

theorem patchList_nodup (l : List ℕ) (s : ViewerState) (h : s.materialsList.Nodup) :
    (l.foldl patchOneMaterial s).materialsList.Nodup := by
  induction l generalizing s with
  | nil => exact h
  | cons a l' ih =>
    rw [List.foldl_cons]
    apply ih
    rw [patchOne_materialsList]
    split_ifs with hmem
    · exact h
    · simp [List.nodup_append, h, hmem]

theorem patchList_stickerTarget (l : List ℕ) (s : ViewerState) :
    (l.foldl patchOneMaterial s).stickerTarget = s.stickerTarget := by
  induction l generalizing s with
  | nil => rfl
  | cons a l' ih => rw [List.foldl_cons, ih, patchOne_stickerTarget]

theorem patchList_mats_ne (l : List ℕ) (s : ViewerState) (mid : ℕ) (h : mid ∉ l) :
    (l.foldl patchOneMaterial s).mats mid = s.mats mid := by
  induction l generalizing s with
  | nil => rfl
  | cons a l' ih =>
    have hne : mid ≠ a := by
      intro he
      exact h (by rw [he]; exact List.mem_cons_self a l')
    rw [List.foldl_cons, ih _ (fun hmem => h (List.mem_cons_of_mem a hmem)),
      patchOne_mats_ne _ _ _ hne]

theorem captureStickerTarget_mats (s : ViewerState) (mesh : MeshNode) :
    (captureStickerTarget s mesh).mats = s.mats := by
  unfold captureStickerTarget
  split_ifs <;> rfl

theorem captureStickerTarget_materialsList (s : ViewerState) (mesh : MeshNode) :
    (captureStickerTarget s mesh).materialsList = s.materialsList := by
  unfold captureStickerTarget
  split_ifs <;> rfl

theorem captureStickerTarget_originalMaps (s : ViewerState) (mesh : MeshNode) :
    (captureStickerTarget s mesh).originalMaps = s.originalMaps := by
  unfold captureStickerTarget
  split_ifs <;> rfl

theorem captureStickerTarget_target (s : ViewerState) (mesh : MeshNode) :
    (captureStickerTarget s mesh).stickerTarget
      = if s.stickerTarget.isNone then some mesh.meshId else s.stickerTarget := by
  unfold captureStickerTarget
  split_ifs <;> rfl

theorem enableShadows_mats (s : ViewerState) (mesh : MeshNode) :
    (enableShadows s mesh).mats = s.mats := rfl

theorem enableShadows_materialsList (s : ViewerState) (mesh : MeshNode) :
    (enableShadows s mesh).materialsList = s.materialsList := rfl

theorem enableShadows_originalMaps (s : ViewerState) (mesh : MeshNode) :
    (enableShadows s mesh).originalMaps = s.originalMaps := rfl

theorem enableShadows_stickerTarget (s : ViewerState) (mesh : MeshNode) :
    (enableShadows s mesh).stickerTarget = s.stickerTarget := rfl

theorem patchMesh_patched (s : ViewerState) (mesh : MeshNode) (mid : ℕ) :
    ((patchMesh s mesh).mats mid).patched
      = if mid ∈ mesh.matIds then true else (s.mats mid).patched := by
  unfold patchMesh
  rw [patchList_patched, enableShadows_mats, captureStickerTarget_mats]

theorem patchMesh_installs (s : ViewerState) (mesh : MeshNode) (mid : ℕ) :
    ((patchMesh s mesh).mats mid).hookInstalls
      = if (s.mats mid).patched = false ∧ mid ∈ mesh.matIds
        then (s.mats mid).hookInstalls + 1 else (s.mats mid).hookInstalls := by
  unfold patchMesh
  rw [patchList_installs, enableShadows_mats, captureStickerTarget_mats]

theorem patchMesh_origUD (s : ViewerState) (mesh : MeshNode) (mid : ℕ) :
    (((patchMesh s mesh).mats mid).originalMapUD).isSome = true
      ↔ (((s.mats mid).originalMapUD).isSome = true ∨ mid ∈ mesh.matIds) := by
  unfold patchMesh
  rw [patchList_origUD, enableShadows_mats, captureStickerTarget_mats]

theorem patchMesh_origMaps (s : ViewerState) (mesh : MeshNode) (mid : ℕ) :
    ((patchMesh s mesh).originalMaps mid).isSome = true
      ↔ ((s.originalMaps mid).isSome = true ∨ mid ∈ mesh.matIds) := by
  unfold patchMesh
  rw [patchList_origMaps, enableShadows_originalMaps, captureStickerTarget_originalMaps]

theorem patchMesh_mem (s : ViewerState) (mesh : MeshNode) (mid : ℕ) :
    mid ∈ (patchMesh s mesh).materialsList
      ↔ (mid ∈ s.materialsList ∨ mid ∈ mesh.matIds) := by
  unfold patchMesh
  rw [patchList_mem, enableShadows_materialsList, captureStickerTarget_materialsList]

theorem patchMesh_nodup (s : ViewerState) (mesh : MeshNode)
    (h : s.materialsList.Nodup) : (patchMesh s mesh).materialsList.Nodup := by
  unfold patchMesh
  apply patchList_nodup
  rw [enableShadows_materialsList, captureStickerTarget_materialsList]
  exact h

theorem patchMesh_target (s : ViewerState) (mesh : MeshNode) :
    (patchMesh s mesh).stickerTarget
      = if s.stickerTarget.isNone then some mesh.meshId else s.stickerTarget := by
  unfold patchMesh
  rw [patchList_stickerTarget, enableShadows_stickerTarget, captureStickerTarget_target]

theorem patchMesh_mats_ne (s : ViewerState) (mesh : MeshNode) (mid : ℕ)
    (h : mid ∉ mesh.matIds) : (patchMesh s mesh).mats mid = s.mats mid := by
  unfold patchMesh
  rw [patchList_mats_ne _ _ _ h, enableShadows_mats, captureStickerTarget_mats]

theorem patchEffect_patched (scene : List MeshNode) (s : ViewerState) (mid : ℕ) :
    ((patchEffect scene s).mats mid).patched
      = if mid ∈ sceneMats scene then true else (s.mats mid).patched := by
  induction scene generalizing s with
  | nil => simp [patchEffect, sceneMats]
  | cons mesh rest ih =>
    simp only [patchEffect, List.foldl_cons] at ih ⊢
    rw [ih]
    by_cases h1 : mid ∈ mesh.matIds
    · simp [patchMesh_patched, h1, sceneMats, List.mem_append]
    · rw [patchMesh_mats_ne _ _ _ h1]
      simp [sceneMats, List.mem_append, h1]

theorem patchEffect_installs (scene : List MeshNode) (s : ViewerState) (mid : ℕ) :
    ((patchEffect scene s).mats mid).hookInstalls
      = if (s.mats mid).patched = false ∧ mid ∈ sceneMats scene
        then (s.mats mid).hookInstalls + 1 else (s.mats mid).hookInstalls := by
  induction scene generalizing s with
  | nil => simp [patchEffect, sceneMats]
  | cons mesh rest ih =>
    simp only [patchEffect, List.foldl_cons] at ih ⊢
    rw [ih]
    by_cases h1 : mid ∈ mesh.matIds
    · by_cases hp : (s.mats mid).patched = false
      · simp [patchMesh_patched, patchMesh_installs, h1, hp, sceneMats, List.mem_append]
      · simp [patchMesh_patched, patchMesh_installs, h1, hp, sceneMats, List.mem_append]
    · rw [patchMesh_mats_ne _ _ _ h1]
      simp [sceneMats, List.mem_append, h1]

theorem patchEffect_origUD (scene : List MeshNode) (s : ViewerState) (mid : ℕ) :
    (((patchEffect scene s).mats mid).originalMapUD).isSome = true
      ↔ (((s.mats mid).originalMapUD).isSome = true ∨ mid ∈ sceneMats scene) := by
  induction scene generalizing s with
  | nil => simp [patchEffect, sceneMats]
  | cons mesh rest ih =>
    simp only [patchEffect, List.foldl_cons] at ih ⊢
    rw [ih]
    simp [patchMesh_origUD, sceneMats, List.mem_append, or_assoc]

theorem patchEffect_origMaps (scene : List MeshNode) (s : ViewerState) (mid : ℕ) :
    ((patchEffect scene s).originalMaps mid).isSome = true
      ↔ ((s.originalMaps mid).isSome = true ∨ mid ∈ sceneMats scene) := by
  induction scene generalizing s with
  | nil => simp [patchEffect, sceneMats]
  | cons mesh rest ih =>
    simp only [patchEffect, List.foldl_cons] at ih ⊢
    rw [ih]
    simp [patchMesh_origMaps, sceneMats, List.mem_append, or_assoc]

theorem patchEffect_mem (scene : List MeshNode) (s : ViewerState) (mid : ℕ) :
    mid ∈ (patchEffect scene s).materialsList
      ↔ (mid ∈ s.materialsList ∨ mid ∈ sceneMats scene) := by
  induction scene generalizing s with
  | nil => simp [patchEffect, sceneMats]
  | cons mesh rest ih =>
    simp only [patchEffect, List.foldl_cons] at ih ⊢
    rw [ih]
    simp [patchMesh_mem, sceneMats, List.mem_append, or_assoc]

theorem patchEffect_nodup (scene : List MeshNode) (s : ViewerState)
    (h : s.materialsList.Nodup) : (patchEffect scene s).materialsList.Nodup := by
  induction scene generalizing s with
  | nil => exact h
  | cons mesh rest ih =>
    simp only [patchEffect, List.foldl_cons] at ih ⊢
    exact ih _ (patchMesh_nodup _ _ h)

theorem patchEffect_target (scene : List MeshNode) (s : ViewerState) :
    (patchEffect scene s).stickerTarget
      = if s.stickerTarget.isNone then (scene.map MeshNode.meshId).head?
        else s.stickerTarget := by
  induction scene generalizing s with
  | nil =>
    cases ht : s.stickerTarget <;> simp [patchEffect, ht]
  | cons mesh rest ih =>
    simp only [patchEffect, List.foldl_cons] at ih ⊢
    rw [ih]
    cases ht : s.stickerTarget with
    | none => simp [patchMesh_target, ht]
    | some t => simp [patchMesh_target, ht]

theorem patchEffect_mats_ne (scene : List MeshNode) (s : ViewerState) (mid : ℕ)
    (h : mid ∉ sceneMats scene) : (patchEffect scene s).mats mid = s.mats mid := by
  induction scene generalizing s with
  | nil => rfl
  | cons mesh rest ih =>
    have h1 : mid ∉ mesh.matIds := by
      intro hmem
      exact h (by simp [sceneMats, List.mem_append, hmem])
    have h2 : mid ∉ sceneMats rest := by
      intro hmem
      exact h (by simp [sceneMats, List.mem_append]; right; simpa [sceneMats] using hmem)
    simp only [patchEffect, List.foldl_cons] at ih ⊢
    rw [ih _ h2, patchMesh_mats_ne _ _ _ h1]

theorem patchRuns_facts (scene : List MeshNode) (mats0 : ℕ → MaterialState)
    (hfresh : ∀ mid, (mats0 mid).patched = false ∧ (mats0 mid).hookInstalls = 0)
    (n : ℕ) (hn : 1 ≤ n) :
    (∀ mid, ((patchRuns scene n (initViewer mats0)).mats mid).patched = true
        ↔ mid ∈ sceneMats scene)
      ∧ (∀ mid ∈ sceneMats scene,
          ((patchRuns scene n (initViewer mats0)).mats mid).hookInstalls = 1)
      ∧ (∀ mid, mid ∈ (patchRuns scene n (initViewer mats0)).materialsList
          ↔ mid ∈ sceneMats scene)
      ∧ (patchRuns scene n (initViewer mats0)).materialsList.Nodup
      ∧ (∀ mid ∈ sceneMats scene,
          ((patchRuns scene n (initViewer mats0)).originalMaps mid).isSome = true
            ∧ (((patchRuns scene n (initViewer mats0)).mats mid).originalMapUD).isSome
                = true) := by
  induction n, hn using Nat.le_induction with
  | base =>
    have he : patchRuns scene 1 (initViewer mats0) = patchEffect scene (initViewer mats0) := rfl
    rw [he]
    refine ⟨?_, ?_, ?_, ?_, ?_⟩
    · intro mid
      rw [patchEffect_patched]
      split_ifs with h
      · simp [h]
      · simp [h, initViewer, (hfresh mid).1]
    · intro mid hmem
      rw [patchEffect_installs, if_pos ⟨(hfresh mid).1, hmem⟩]
      simp [initViewer, (hfresh mid).2]
    · intro mid
      rw [patchEffect_mem]
      simp [initViewer]
    · exact patchEffect_nodup _ _ (by simp [initViewer])
    · intro mid hmem
      exact ⟨(patchEffect_origMaps _ _ _).mpr (Or.inr hmem),
        (patchEffect_origUD _ _ _).mpr (Or.inr hmem)⟩
  | succ k hk ih =>
    obtain ⟨ih1, ih2, ih3, ih4, ih5⟩ := ih
    have he : patchRuns scene (k + 1) (initViewer mats0)
        = patchEffect scene (patchRuns scene k (initViewer mats0)) := rfl
    rw [he]
    refine ⟨?_, ?_, ?_, ?_, ?_⟩
    · intro mid
      rw [patchEffect_patched]
      split_ifs with h
      · simp [h]
      · exact ih1 mid
    · intro mid hmem
      have hpt : ((patchRuns scene k (initViewer mats0)).mats mid).patched = true :=
        (ih1 mid).mpr hmem
      rw [patchEffect_installs, if_neg (by simp [hpt])]
      exact ih2 mid hmem
    · intro mid
      rw [patchEffect_mem, ih3 mid]
      simp
    · exact patchEffect_nodup _ _ ih4
    · intro mid hmem
      exact ⟨(patchEffect_origMaps _ _ _).mpr (Or.inr hmem),
        (patchEffect_origUD _ _ _).mpr (Or.inr hmem)⟩

/-- C3: from a freshly loaded scene (no material yet patched, zero installed
hooks), any number `n ≥ 1` of successive runs of the patch step — it re-runs
on every texture change — installs the shader hook exactly once per distinct
material; the marked (`__patched`) materials are exactly the scene's
materials, and the patched-materials list is duplicate-free with exactly one
entry per distinct material (count equals the number of distinct materials,
not `n×`); bookkeeping — the original-map record in the WeakMap, the
`userData.originalMap` record and list membership — holds after every run. -/
theorem claim3_patch_idempotent (scene : List MeshNode) (mats0 : ℕ → MaterialState)
    (hfresh : ∀ mid, (mats0 mid).patched = false ∧ (mats0 mid).hookInstalls = 0)
    (n : ℕ) (hn : 1 ≤ n) :
    (∀ mid ∈ sceneMats scene,
        ((patchRuns scene n (initViewer mats0)).mats mid).hookInstalls = 1
          ∧ ((patchRuns scene n (initViewer mats0)).mats mid).patched = true
          ∧ mid ∈ (patchRuns scene n (initViewer mats0)).materialsList
          ∧ ((patchRuns scene n (initViewer mats0)).originalMaps mid).isSome = true
          ∧ (((patchRuns scene n (initViewer mats0)).mats mid).originalMapUD).isSome = true)
      ∧ (∀ mid, ((patchRuns scene n (initViewer mats0)).mats mid).patched = true
          ↔ mid ∈ sceneMats scene)
      ∧ (patchRuns scene n (initViewer mats0)).materialsList.Nodup
      ∧ (patchRuns scene n (initViewer mats0)).materialsList.length
          = (sceneMats scene).dedup.length := by
  obtain ⟨h1, h2, h3, h4, h5⟩ := patchRuns_facts scene mats0 hfresh n hn
  refine ⟨?_, h1, h4, ?_⟩
  · intro mid hmem
    exact ⟨h2 mid hmem, (h1 mid).mpr hmem, (h3 mid).mpr hmem, (h5 mid hmem).1,
      (h5 mid hmem).2⟩
  · have hfs : (patchRuns scene n (initViewer mats0)).materialsList.toFinset
        = ((sceneMats scene).dedup).toFinset := by
      ext x
      simp [List.mem_toFinset, List.mem_dedup, h3 x]
    calc (patchRuns scene n (initViewer mats0)).materialsList.length
        = (patchRuns scene n (initViewer mats0)).materialsList.toFinset.card :=
          (List.toFinset_card_of_nodup h4).symm
      _ = ((sceneMats scene).dedup).toFinset.card := by rw [hfs]
      _ = (sceneMats scene).dedup.length :=
          List.toFinset_card_of_nodup (List.nodup_dedup _)

/-- Witness for C3: two successive patch runs over a scene with a shared
material install the hook once per distinct material (2 distinct materials,
not 2×). -/
theorem claim3_patch_idempotent_witness :
    (∀ mid ∈ sceneMats demoScene,
        ((patchRuns demoScene 2 (initViewer demoFresh)).mats mid).hookInstalls = 1
          ∧ ((patchRuns demoScene 2 (initViewer demoFresh)).mats mid).patched = true
          ∧ mid ∈ (patchRuns demoScene 2 (initViewer demoFresh)).materialsList
          ∧ ((patchRuns demoScene 2 (initViewer demoFresh)).originalMaps mid).isSome = true
          ∧ (((patchRuns demoScene 2 (initViewer demoFresh)).mats mid).originalMapUD).isSome
              = true)
      ∧ (∀ mid, ((patchRuns demoScene 2 (initViewer demoFresh)).mats mid).patched = true
          ↔ mid ∈ sceneMats demoScene)
      ∧ (patchRuns demoScene 2 (initViewer demoFresh)).materialsList.Nodup
      ∧ (patchRuns demoScene 2 (initViewer demoFresh)).materialsList.length
          = (sceneMats demoScene).dedup.length :=
  claim3_patch_idempotent demoScene demoFresh (fun _ => ⟨rfl, rfl⟩) 2 (by norm_num)

/-- C8: the decal target is the first mesh encountered during traversal of the
loaded scene graph and, once captured, is never replaced by a re-traversal;
whenever a sticker texture, a sticker transform and a target mesh are all
present, the sticker is projected onto the target at the transform's position,
with each rotation component converted from degrees to radians, at the
transform's uniform scale; with no target mesh the decal is silently
omitted. -/
theorem claim8_decal_projection (scene : List MeshNode) (s : ViewerState)
    (tex mid : ℕ) (t : StickerTransform) :
    (s.stickerTarget = none →
        (patchEffect scene s).stickerTarget = (scene.map MeshNode.meshId).head?)
      ∧ (s.stickerTarget = some mid → (patchEffect scene s).stickerTarget = some mid)
      ∧ renderDecal (some tex) (some t) (some mid)
          = some ⟨mid, t.position,
              ⟨degToRadPiCoeff t.rotationDeg.x, degToRadPiCoeff t.rotationDeg.y,
                degToRadPiCoeff t.rotationDeg.z⟩,
              t.scale, tex⟩
      ∧ renderDecal (some tex) (some t) none = none := by
  refine ⟨fun h => ?_, fun h => ?_, rfl, rfl⟩
  · rw [patchEffect_target]
    simp [h]
  · rw [patchEffect_target]
    simp [h]

/-- Witness for C8 on a concrete scene and transform. -/
theorem claim8_decal_projection_witness :
    ((initViewer demoFresh).stickerTarget = none →
        (patchEffect demoScene (initViewer demoFresh)).stickerTarget
          = (demoScene.map MeshNode.meshId).head?)
      ∧ ((initViewer demoFresh).stickerTarget = some 0 →
          (patchEffect demoScene (initViewer demoFresh)).stickerTarget = some 0)
      ∧ renderDecal (some 7) (some ⟨⟨0, 1/4, 0⟩, ⟨0, 90, 0⟩, 1/2⟩) (some 0)
          = some ⟨0, ⟨0, 1/4, 0⟩,
              ⟨degToRadPiCoeff 0, degToRadPiCoeff 90, degToRadPiCoeff 0⟩, 1/2, 7⟩
      ∧ renderDecal (some 7) (some ⟨⟨0, 1/4, 0⟩, ⟨0, 90, 0⟩, 1/2⟩) none = none :=
  claim8_decal_projection demoScene (initViewer demoFresh) 7 0 ⟨⟨0, 1/4, 0⟩, ⟨0, 90, 0⟩, 1/2⟩

/-- C9 counterexample to the claim as stated: the refs survive a model change.
After loading model A (mesh `0`, material `10`) and then model B (mesh `1`,
material `20`), the tracked patched-materials list still contains model A's
material `10` — which is not a material of model B — and the decal target is
still model A's mesh `0`, not a mesh of model B. -/
theorem claim9_counterexample :
    10 ∈ (patchEffect demoMeshesB (patchEffect demoMeshesA (initViewer demoFresh))).materialsList
      ∧ 10 ∉ sceneMats demoMeshesB
      ∧ (patchEffect demoMeshesB (patchEffect demoMeshesA (initViewer demoFresh))).stickerTarget
          = some 0
      ∧ demoMeshesB.map MeshNode.meshId = [1] := by
  refine ⟨?_, by decide, ?_, rfl⟩
  · rw [patchEffect_mem, patchEffect_mem]
    simp [demoMeshesA, sceneMats]
  · rw [patchEffect_target, patchEffect_target]
    simp [initViewer, demoMeshesA]

/-- C9 (amended): when the model selection changes, the loaded scene-graph
handle itself is replaced wholesale, but the viewer's tracked refs persist:
after the new model's patch run, the patched-materials list still contains
every material of the previous model and additionally the new model's
materials, and an already-captured decal target mesh (from the previous
model) is kept unchanged. -/
theorem claim9_refs_persist (sceneA sceneB : List MeshNode)
    (mats0 : ℕ → MaterialState) (t : ℕ) :
    (∀ mid ∈ sceneMats sceneA,
        mid ∈ (patchEffect sceneB (patchEffect sceneA (initViewer mats0))).materialsList)
      ∧ (∀ mid ∈ sceneMats sceneB,
          mid ∈ (patchEffect sceneB (patchEffect sceneA (initViewer mats0))).materialsList)
      ∧ ((patchEffect sceneA (initViewer mats0)).stickerTarget = some t →
          (patchEffect sceneB (patchEffect sceneA (initViewer mats0))).stickerTarget
            = some t) := by
  refine ⟨fun mid hmem => ?_, fun mid hmem => ?_, fun h => ?_⟩
  · rw [patchEffect_mem, patchEffect_mem]
    exact Or.inl (Or.inr hmem)
  · rw [patchEffect_mem]
    exact Or.inr hmem
  · rw [patchEffect_target]
    simp [h]

/-- Witness for C9 (amended) on the concrete two-model run. -/
theorem claim9_refs_persist_witness :
    (∀ mid ∈ sceneMats demoMeshesA,
        mid ∈ (patchEffect demoMeshesB
            (patchEffect demoMeshesA (initViewer demoFresh))).materialsList)
      ∧ (∀ mid ∈ sceneMats demoMeshesB,
          mid ∈ (patchEffect demoMeshesB
              (patchEffect demoMeshesA (initViewer demoFresh))).materialsList)
      ∧ ((patchEffect demoMeshesA (initViewer demoFresh)).stickerTarget = some 0 →
          (patchEffect demoMeshesB
              (patchEffect demoMeshesA (initViewer demoFresh))).stickerTarget = some 0) :=
  claim9_refs_persist demoMeshesA demoMeshesB demoFresh 0

theorem foldl_update_apply (l : List ℕ) (f : ℕ → MaterialState)
    (step : ℕ → MaterialState → MaterialState) (mid : ℕ) :
    (l.foldl (fun f' m => Function.update f' m (step m (f' m))) f) mid
      = (step mid)^[l.count mid] (f mid) := by
  induction l generalizing f with
  | nil => rfl
  | cons a l' ih =>
    rw [List.foldl_cons, ih]
    by_cases hm : mid = a
    · subst hm
      rw [List.count_cons_self, Function.iterate_succ_apply, Function.update_same]
    · rw [List.count_cons_of_ne hm, Function.update_noteq hm]

theorem frameUpdate_mats (delta : ℚ) (s : ViewerState) (mid : ℕ) :
    (frameUpdate delta s).mats mid
      = (advanceMaterial delta)^[s.materialsList.count mid] (s.mats mid) := by
  unfold frameUpdate
  exact foldl_update_apply _ _ (fun _ m => advanceMaterial delta m) mid

theorem frameUpdate_materialsList (delta : ℚ) (s : ViewerState) :
    (frameUpdate delta s).materialsList = s.materialsList := rfl

/-- C10: the patched-materials list built by any number of patch runs from a
fresh mount is duplicate-free (membership is checked before each push), and on
a rendered frame the per-frame update applies the advance step to each listed
material exactly once — the fade rate is never doubled by a duplicate
entry. -/
theorem claim10_no_duplicates (scene : List MeshNode) (mats0 : ℕ → MaterialState)
    (n : ℕ) (delta : ℚ) (mid : ℕ) :
    (patchRuns scene n (initViewer mats0)).materialsList.Nodup
      ∧ (∀ s : ViewerState, s.materialsList.Nodup → mid ∈ s.materialsList →
          (frameUpdate delta s).mats mid = advanceMaterial delta (s.mats mid)) := by
  constructor
  · induction n with
    | zero => simp [patchRuns, initViewer]
    | succ k ih => exact patchEffect_nodup _ _ ih
  · intro s hnd hmem
    rw [frameUpdate_mats, List.count_eq_one_of_mem hnd hmem, Function.iterate_one]

/-- Witness for C10: one patch run over the shared-material scene, then one
frame on a concrete state. -/
theorem claim10_no_duplicates_witness :
    (patchRuns demoScene 1 (initViewer demoFresh)).materialsList.Nodup
      ∧ (∀ s : ViewerState, s.materialsList.Nodup → 10 ∈ s.materialsList →
          (frameUpdate (1/60) s).mats 10 = advanceMaterial (1/60) (s.mats 10)) :=
  claim10_no_duplicates demoScene demoFresh 1 (1/60) 10

theorem retarget_progress (orig : Option (Option ℕ)) (fallback : ℕ) (texture : Option ℕ)
    (m : MaterialState) :
    (retargetMaterial orig fallback texture m).transitionProgress = some 0 := by
  unfold retargetMaterial
  cases hb : m.blendUniforms <;> simp [hb]

theorem retarget_uMix (orig : Option (Option ℕ)) (fallback : ℕ) (texture : Option ℕ)
    (m : MaterialState) (u : Uniforms) (hbu : m.blendUniforms = some u) :
    ∃ u2, (retargetMaterial orig fallback texture m).blendUniforms = some u2
      ∧ u2.uMix = 0 := by
  unfold retargetMaterial
  simp only [hbu]
  exact ⟨_, rfl, rfl⟩

theorem textureChange_materialsList (fallback : ℕ) (texture : Option ℕ) (s : ViewerState) :
    (textureChangeEffect fallback texture s).materialsList = s.materialsList := rfl

theorem textureChange_mats (fallback : ℕ) (texture : Option ℕ) (s : ViewerState) (mid : ℕ)
    (hnd : s.materialsList.Nodup) (hmem : mid ∈ s.materialsList) :
    (textureChangeEffect fallback texture s).mats mid
      = retargetMaterial (s.originalMaps mid) fallback texture (s.mats mid) := by
  unfold textureChangeEffect
  dsimp only
  rw [foldl_update_apply _ _ (fun m mState => retargetMaterial (s.originalMaps m) fallback texture mState),
    List.count_eq_one_of_mem hnd hmem, Function.iterate_one]

theorem frameRun_mats (ds : List ℚ) (s : ViewerState) (mid : ℕ)
    (hnd : s.materialsList.Nodup) (hmem : mid ∈ s.materialsList) :
    (frameRun ds s).mats mid
      = ds.foldl (fun m d => advanceMaterial d m) (s.mats mid) := by
  induction ds generalizing s with
  | nil => rfl
  | cons d ds' ih =>
    simp only [frameRun, List.foldl_cons] at ih ⊢
    rw [ih (frameUpdate d s) (by rw [frameUpdate_materialsList]; exact hnd)
        (by rw [frameUpdate_materialsList]; exact hmem),
      frameUpdate_mats, List.count_eq_one_of_mem hnd hmem, Function.iterate_one]

theorem advance_closed (ds : List ℚ) (S : ℚ) (m : MaterialState) (u : Uniforms)
    (hds : ∀ d ∈ ds, 0 ≤ d) (hS : 0 ≤ S)
    (hbu : m.blendUniforms = some u)
    (hp : m.transitionProgress = some (min 1 (S / 0.8)))
    (humix : u.uMix = min 1 (S / 0.8)) :
    ((ds.foldl (fun m' d => advanceMaterial d m') m).transitionProgress
        = some (min 1 ((S + ds.sum) / 0.8)))
      ∧ ∃ u2, (ds.foldl (fun m' d => advanceMaterial d m') m).blendUniforms = some u2
          ∧ u2.uMix = min 1 ((S + ds.sum) / 0.8) := by
  induction ds generalizing S m u with
  | nil =>
    simp only [List.foldl_nil, List.sum_nil, add_zero]
    exact ⟨hp, u, hbu, humix⟩
  | cons d ds' ih =>
    have hd0 : 0 ≤ d := hds d (List.mem_cons_self _ _)
    have hds' : ∀ x ∈ ds', 0 ≤ x := fun x hx => hds x (List.mem_cons_of_mem _ hx)
    have hS' : 0 ≤ S + d := add_nonneg hS hd0
    rw [List.foldl_cons]
    by_cases hlt : min 1 (S / 0.8) < 1
    · have hratio : S / 0.8 < 1 := by
        rcases lt_or_le (S / 0.8) 1 with h | h
        · exact h
        · rw [min_eq_left h] at hlt
          exact absurd hlt (lt_irrefl 1)
      have hmin : min 1 (S / 0.8) = S / 0.8 := min_eq_right (le_of_lt hratio)
      have hnext : min 1 (min 1 (S / 0.8) + d / 0.8) = min 1 ((S + d) / 0.8) := by
        rw [hmin, div_add_div_same]
      have hstep : advanceMaterial d m
          = { m with
                blendUniforms := some ({ u with uMix := min 1 ((S + d) / 0.8) })
                transitionProgress := some (min 1 ((S + d) / 0.8)) } := by
        unfold advanceMaterial
        simp only [hbu, hp, Option.getD_some]
        rw [if_pos hlt, hnext]
      rw [hstep]
      have hres := ih (S + d)
          ({ m with
              blendUniforms := some ({ u with uMix := min 1 ((S + d) / 0.8) })
              transitionProgress := some (min 1 ((S + d) / 0.8)) })
          ({ u with uMix := min 1 ((S + d) / 0.8) }) hds' hS' rfl rfl rfl
      simpa [List.sum_cons, add_assoc] using hres
    · have h1 : min 1 (S / 0.8) = 1 := le_antisymm (min_le_left _ _) (not_lt.mp hlt)
      have hS8 : (1 : ℚ) ≤ S / 0.8 := min_eq_left_iff.mp h1
      have h2 : min 1 ((S + d) / 0.8) = 1 := by
        apply min_eq_left
        calc (1 : ℚ) ≤ S / 0.8 := hS8
          _ ≤ (S + d) / 0.8 := by gcongr; linarith
      have hstep : advanceMaterial d m = m := by
        unfold advanceMaterial
        simp only [hbu, hp, Option.getD_some, h1]
        rw [if_neg (lt_irrefl 1)]
      rw [hstep]
      have hres := ih (S + d) m u hds' hS' hbu (by rw [hp, h1, h2]) (by rw [humix, h1, h2])
      simpa [List.sum_cons, add_assoc] using hres

/-- C1: after every texture-change event, each patched material (blend
uniforms compiled, listed once in `materialsRef`) has its
`transitionProgress` reset to 0 and its `uMix` blend-factor uniform zeroed;
over any rendered frames with non-negative elapsed times the progress equals
`min 1 (elapsedSum / 0.8)` — so it is non-decreasing, never exceeds 1, and is
exactly 1 as soon as the summed frame times reach 0.8 s, at any frame-time
granularity — each advancing frame writes the same value into the
blend-factor uniform, and once progress is 1 the per-frame update leaves the
material unchanged (the animator is self-terminating per material). -/
theorem claim1_crossfade_animator (s : ViewerState) (fallback : ℕ) (texture : Option ℕ)
    (mid : ℕ) (u : Uniforms) (hbu : (s.mats mid).blendUniforms = some u)
    (hnd : s.materialsList.Nodup) (hmem : mid ∈ s.materialsList)
    (ds : List ℚ) (hds : ∀ x ∈ ds, 0 ≤ x) (d : ℚ) (hd : 0 ≤ d) :
    progressAfter fallback texture s mid [] = some 0
      ∧ uMixAfter fallback texture s mid [] = some 0
      ∧ progressAfter fallback texture s mid ds = some (min 1 (ds.sum / 0.8))
      ∧ uMixAfter fallback texture s mid ds = some (min 1 (ds.sum / 0.8))
      ∧ (∀ p q, progressAfter fallback texture s mid ds = some p →
          progressAfter fallback texture s mid (ds ++ [d]) = some q → p ≤ q ∧ q ≤ 1)
      ∧ ((0.8 : ℚ) ≤ ds.sum → progressAfter fallback texture s mid ds = some 1)
      ∧ (∀ m : MaterialState, m.transitionProgress = some 1 → advanceMaterial d m = m) := by
  have hmats : (textureChangeEffect fallback texture s).mats mid
      = retargetMaterial (s.originalMaps mid) fallback texture (s.mats mid) :=
    textureChange_mats fallback texture s mid hnd hmem
  obtain ⟨u0, hu0, hu0mix⟩ :=
    retarget_uMix (s.originalMaps mid) fallback texture (s.mats mid) u hbu
  have hm0p := retarget_progress (s.originalMaps mid) fallback texture (s.mats mid)
  have hmin0 : min (1 : ℚ) (0 / 0.8) = 0 := by norm_num
  have closed : ∀ ds' : List ℚ, (∀ x ∈ ds', 0 ≤ x) →
      progressAfter fallback texture s mid ds' = some (min 1 (ds'.sum / 0.8))
        ∧ uMixAfter fallback texture s mid ds' = some (min 1 (ds'.sum / 0.8)) := by
    intro ds' hds'
    have hfr : (frameRun ds' (textureChangeEffect fallback texture s)).mats mid
        = ds'.foldl (fun m d' => advanceMaterial d' m)
            (retargetMaterial (s.originalMaps mid) fallback texture (s.mats mid)) := by
      rw [frameRun_mats _ _ _ (by rw [textureChange_materialsList]; exact hnd)
          (by rw [textureChange_materialsList]; exact hmem), hmats]
    obtain ⟨hprog, u2, hbu2, hmix2⟩ :=
      advance_closed ds' 0 _ u0 hds' le_rfl hu0 (by rw [hm0p, hmin0])
        (by rw [hu0mix, hmin0])
    constructor
    · unfold progressAfter
      rw [hfr]
      simpa using hprog
    · unfold uMixAfter
      rw [hfr, hbu2]
      simpa using hmix2
  obtain ⟨hp0, hm0⟩ := closed [] (by intro x hx; simp at hx)
  have hdsd : ∀ x ∈ ds ++ [d], 0 ≤ x := by
    intro x hx
    rcases List.mem_append.mp hx with h | h
    · exact hds x h
    · rw [List.mem_singleton] at h
      subst h
      exact hd
  refine ⟨by simpa [hmin0] using hp0, by simpa [hmin0] using hm0,
    (closed ds hds).1, (closed ds hds).2, ?_, ?_, ?_⟩
  · intro p q hp' hq'
    rw [(closed ds hds).1] at hp'
    rw [(closed (ds ++ [d]) hdsd).1] at hq'
    have hpv : p = min 1 (ds.sum / 0.8) := (Option.some_inj.mp hp').symm
    have hqv : q = min 1 ((ds.sum + d) / 0.8) := by
      rw [(Option.some_inj.mp hq').symm]
      simp [List.sum_append]
    subst hpv
    subst hqv
    constructor
    · apply min_le_min le_rfl
      gcongr
      linarith
    · exact min_le_left _ _
  · intro h08
    rw [(closed ds hds).1]
    have h1 : min 1 (ds.sum / 0.8) = 1 :=
      min_eq_left ((one_le_div (by norm_num)).mpr h08)
    rw [h1]
  · intro m hm
    unfold advanceMaterial
    cases hb : m.blendUniforms with
    | none => rfl
    | some u' => simp [hm, hb]

/-- Witness for C1: two frames of 0.4 s each carry the transition from 0
exactly to 1. -/
theorem claim1_crossfade_animator_witness :
    progressAfter 0 (some 3) demoViewer 10 [] = some 0
      ∧ uMixAfter 0 (some 3) demoViewer 10 [] = some 0
      ∧ progressAfter 0 (some 3) demoViewer 10 [2/5, 2/5]
          = some (min 1 (([2/5, 2/5] : List ℚ).sum / 0.8))
      ∧ uMixAfter 0 (some 3) demoViewer 10 [2/5, 2/5]
          = some (min 1 (([2/5, 2/5] : List ℚ).sum / 0.8))
      ∧ (∀ p q, progressAfter 0 (some 3) demoViewer 10 [2/5, 2/5] = some p →
          progressAfter 0 (some 3) demoViewer 10 ([2/5, 2/5] ++ [1/4]) = some q →
            p ≤ q ∧ q ≤ 1)
      ∧ ((0.8 : ℚ) ≤ ([2/5, 2/5] : List ℚ).sum →
          progressAfter 0 (some 3) demoViewer 10 [2/5, 2/5] = some 1)
      ∧ (∀ m : MaterialState, m.transitionProgress = some 1
          → advanceMaterial (1/4) m = m) :=
  claim1_crossfade_animator demoViewer 0 (some 3) 10 demoUniforms rfl
    (by decide) (by decide)
    [2/5, 2/5]
    (by
      intro x hx
      rcases List.mem_cons.mp hx with rfl | hx2
      · norm_num
      · rw [List.mem_singleton] at hx2
        subst hx2
        norm_num)
    (1/4) (by norm_num)

end ModelViewer
